import Mathlib

/-!
# Automatic statement-terminator insertion in `parser.Scanner` (langvm/cee)

A shallow embedding of `src/parser/scanner.go`: the token filter that wraps the
raw scanner and turns grammatically significant newlines into `SEMICOLON`
tokens (`Scanner.ScanToken`), and its pull-style driver `Scanner.Scan`.

Go state is passed explicitly.  A Go `(value, error)` result is the pair of the
value and an `Option` error (`none` is `nil`).  The recursion of `ScanToken` is
not bounded by the code (it lasts as long as the raw scanner keeps producing
discarded newlines), so the embedding carries a fuel argument that bounds the
number of raw scans; `none` means the fuel ran out before the call returned.
-/

namespace token

/-- Modelled from the spec: the token-kind enumeration of package `cee/token`,
which is not under `src/`.  It has the kinds that `parser/scanner.go` names
(`NEWLINE`, the nine kinds of the `switch`, `SEMICOLON`), `PLUS` from the
scenarios of the spec, `ILLEGAL` for the zero value of the kind type (the spec:
"zero-value kind is not terminator-eligible"), and `other n` for every further
lexical category. -/
inductive Kind where
  | ILLEGAL
  | NEWLINE
  | IDENT
  | RBRACE
  | RBRACK
  | RPAREN
  | BREAK
  | CONTINUE
  | RETURN
  | INC
  | DEC
  | SEMICOLON
  | PLUS
  | other (n : Nat)
  deriving DecidableEq, Repr

end token

namespace ast

/-- Modelled from the spec: `ast.PosRange` of package `cee/ast`, which is not
under `src/`: the two source positions that bracket a token, under the field
names that `parser/scanner.go` writes.  The type of a position is the parameter
`Pos`. -/
structure PosRange (Pos : Type) where
  From : Pos
  To : Pos
  deriving DecidableEq, Repr

/-- Modelled from the spec: `ast.Token` of package `cee/ast`, which is not under
`src/`: position range, kind and literal, under the field names that
`parser/scanner.go` writes. -/
structure Token (Pos : Type) where
  PosRange : PosRange Pos
  Kind : token.Kind
  Literal : String
  deriving DecidableEq, Repr

/-- The Go zero value `ast.Token{}`: zero positions, the zero kind and the empty
literal. -/
def Token.zero {Pos : Type} [Zero Pos] : Token Pos :=
  { PosRange := { From := 0, To := 0 }, Kind := token.Kind.ILLEGAL, Literal := "" }

end ast

namespace scanner

/-- Modelled from the spec: the raw scanner `cee/scanner.Scanner`, which is not
under `src/`.  Its state is a value of type `σ`; `Position` reads the field
`Position` of a state, and `ScanToken` is one raw scan: it gives the state
after the scan and the Go result `(kind, lit, err)`, `lit` being the matched
runes and `err = none` the `nil` error. -/
structure Model (σ Pos Err : Type) where
  Position : σ → Pos
  ScanToken : σ → σ × token.Kind × List Char × Option Err

end scanner

namespace parser

set_option linter.dupNamespace false

/-- `parser.Scanner` (scanner.go 14-20): the embedded raw scanner, the current
token and the delimiter stack.  The type `Stack` of `cee/internal` is not under
`src/`; a `Stack[int]` is taken to be a list of integers. -/
structure Scanner (σ Pos : Type) where
  Scanner : σ
  Token : ast.Token Pos
  DelimiterStack : List (List Int)
  deriving DecidableEq, Repr

variable {σ Pos Err : Type}

/-- `Scanner.ScanToken` (scanner.go 22-56).  The result is the Go pair
`(ast.Token, error)` and the scanner after the call.  Each unit of fuel pays
for one raw scan. -/
def Scanner.ScanToken [Zero Pos] (R : scanner.Model σ Pos Err) :
    Nat → parser.Scanner σ Pos → Option ((ast.Token Pos × Option Err) × parser.Scanner σ Pos)
  | 0, _ => none
  | fuel + 1, s =>
    let begin := R.Position s.Scanner
    match R.ScanToken s.Scanner with
    | (sc, kind, lit, err) =>
      let s := { s with Scanner := sc }
      match err with
      | some e => some ((ast.Token.zero, some e), s)
      | none =>
        if kind = token.Kind.NEWLINE then
          match s.Token.Kind with
          | token.Kind.IDENT | token.Kind.RBRACE | token.Kind.RBRACK
          | token.Kind.RPAREN | token.Kind.BREAK | token.Kind.CONTINUE
          | token.Kind.RETURN | token.Kind.INC | token.Kind.DEC =>
            some (({ PosRange := { From := begin, To := R.Position s.Scanner },
                     Kind := token.Kind.SEMICOLON,
                     Literal := ";" }, none), s)
          | _ => Scanner.ScanToken R fuel s
        else
          some (({ PosRange := { From := begin, To := R.Position s.Scanner },
                   Kind := kind,
                   Literal := String.mk lit }, none), s)

/-- How a call of `Scanner.Scan` ends: it returns, or it panics with the error
of the failed scan.  Both carry the scanner as the call left it. -/
inductive ScanResult (σ Pos Err : Type) where
  | returned (s : Scanner σ Pos)
  | panicked (e : Err) (s : Scanner σ Pos)
  deriving DecidableEq, Repr

/-- `Scanner.Scan` (scanner.go 58-65): `panic(err)` on a failed `ScanToken`,
otherwise the assignment `s.Token = tok`. -/
def Scanner.Scan [Zero Pos] (R : scanner.Model σ Pos Err) (fuel : Nat)
    (s : parser.Scanner σ Pos) :
    Option (ScanResult σ Pos Err) :=
  match Scanner.ScanToken R fuel s with
  | none => none
  | some ((tok, err), s) =>
    match err with
    | some e => some (ScanResult.panicked e s)
    | none => some (ScanResult.returned { s with Token := tok })

/-- The kinds of the `switch` in `ScanToken` with an empty case body: a newline
after a token of one of these kinds becomes a `SEMICOLON`. -/
def terminatorEligible : List token.Kind :=
  [token.Kind.IDENT, token.Kind.RBRACE, token.Kind.RBRACK, token.Kind.RPAREN,
   token.Kind.BREAK, token.Kind.CONTINUE, token.Kind.RETURN, token.Kind.INC,
   token.Kind.DEC]

/-- The state of the raw scanner after `d` raw scans. -/
def rawAfter (R : scanner.Model σ Pos Err) : Nat → σ → σ
  | 0, sc => sc
  | d + 1, sc => rawAfter R d (R.ScanToken sc).1

/-- The next `d` raw scans from `sc` all succeed with kind `NEWLINE`. -/
def NewlineRun (R : scanner.Model σ Pos Err) (d : Nat) (sc : σ) : Prop :=
  ∀ i, i < d →
    (R.ScanToken (rawAfter R i sc)).2.1 = token.Kind.NEWLINE ∧
    (R.ScanToken (rawAfter R i sc)).2.2.2 = none

instance NewlineRun.instDecidable [DecidableEq Err] (R : scanner.Model σ Pos Err) (d : Nat)
    (sc : σ) : Decidable (NewlineRun R d sc) := by
  unfold NewlineRun
  infer_instance

/-- The filter as constructed: the raw scanner in state `sc`, the zero-value
current token and an empty delimiter stack. -/
def Scanner.init [Zero Pos] (sc : σ) : parser.Scanner σ Pos :=
  { Scanner := sc, Token := ast.Token.zero, DelimiterStack := [] }

/-- A caller that pulls tokens with repeated `Scan` calls: up to `n` calls of
`Scan`, stopping at the first panic.  It gives the current token after each
call that returned, in order, and how the last call ended. -/
def Scanner.ScanN [Zero Pos] (R : scanner.Model σ Pos Err) (fuel : Nat) :
    Nat → parser.Scanner σ Pos → Option (List (ast.Token Pos) × ScanResult σ Pos Err)
  | 0, s => some ([], ScanResult.returned s)
  | n + 1, s =>
    match Scanner.Scan R fuel s with
    | none => none
    | some (ScanResult.panicked e s1) => some ([], ScanResult.panicked e s1)
    | some (ScanResult.returned s1) =>
      match Scanner.ScanN R fuel n s1 with
      | none => none
      | some (toks, r) => some (s1.Token :: toks, r)

/-- The next raw scans from `sc` succeed and give, in order, the kinds and
literals of `raw`. -/
def Yields (R : scanner.Model σ Pos Err) : σ → List (token.Kind × List Char) → Prop
  | _, [] => True
  | sc, (k, lit) :: rest =>
    (R.ScanToken sc).2 = (k, lit, none) ∧ Yields R (R.ScanToken sc).1 rest

/-- The reference filter of the spec, written from its words: one pass from
left to right over the raw tokens, `prev` being the kind of the last emitted
token.  A raw token that is not a newline is emitted unchanged; a newline emits
`(SEMICOLON, ";")` when `prev` is terminator-eligible and nothing otherwise. -/
def referenceFilter : token.Kind → List (token.Kind × List Char) → List (token.Kind × String)
  | _, [] => []
  | prev, (k, lit) :: rest =>
    if k = token.Kind.NEWLINE then
      if prev ∈ terminatorEligible then
        (token.Kind.SEMICOLON, ";") :: referenceFilter token.Kind.SEMICOLON rest
      else
        referenceFilter prev rest
    else
      (k, String.mk lit) :: referenceFilter k rest

/-- `Scanner.ScanToken` (scanner.go 22-56) with its cost made visible: the same
code, giving next to its result the number of raw scans it performed (calls of
`s.Scanner.ScanToken()`, line 25) and the number of its recursive self-calls
(`return s.ScanToken()`, line 42). -/
def Scanner.ScanTokenCost [Zero Pos] (R : scanner.Model σ Pos Err) :
    Nat → parser.Scanner σ Pos →
      Option (((ast.Token Pos × Option Err) × parser.Scanner σ Pos) × Nat × Nat)
  | 0, _ => none
  | fuel + 1, s =>
    let begin := R.Position s.Scanner
    match R.ScanToken s.Scanner with
    | (sc, kind, lit, err) =>
      let s := { s with Scanner := sc }
      match err with
      | some e => some (((ast.Token.zero, some e), s), 1, 0)
      | none =>
        if kind = token.Kind.NEWLINE then
          match s.Token.Kind with
          | token.Kind.IDENT | token.Kind.RBRACE | token.Kind.RBRACK
          | token.Kind.RPAREN | token.Kind.BREAK | token.Kind.CONTINUE
          | token.Kind.RETURN | token.Kind.INC | token.Kind.DEC =>
            some ((({ PosRange := { From := begin, To := R.Position s.Scanner },
                      Kind := token.Kind.SEMICOLON,
                      Literal := ";" }, none), s), 1, 0)
          | _ =>
            match Scanner.ScanTokenCost R fuel s with
            | none => none
            | some (res, scans, calls) => some (res, scans + 1, calls + 1)
        else
          some ((({ PosRange := { From := begin, To := R.Position s.Scanner },
                    Kind := kind,
                    Literal := String.mk lit }, none), s), 1, 0)

/-- A raw scanner for concrete runs: it replays a script of scan results.  A
scan moves the position by the length of the literal, and by one for an empty
literal; past the last entry every scan fails with `"EOF"`. -/
structure Replay where
  Position : Nat
  pending : List (token.Kind × String × Option String)
  deriving DecidableEq, Repr

/-- One raw scan of the replaying scanner. -/
def Replay.ScanToken (sc : Replay) : Replay × token.Kind × List Char × Option String :=
  match sc.pending with
  | [] => (sc, token.Kind.ILLEGAL, [], some "EOF")
  | (k, lit, err) :: rest =>
    ({ Position := sc.Position + max 1 lit.length, pending := rest }, k, lit.toList, err)

/-- The replaying scanner as a raw-scanner model. -/
def Replay.model : scanner.Model Replay Nat String :=
  { Position := Replay.Position, ScanToken := Replay.ScanToken }

/-- The filter as constructed over a script. -/
def Replay.start (script : List (token.Kind × String × Option String)) :
    parser.Scanner Replay Nat :=
  Scanner.init { Position := 0, pending := script }

end parser

namespace parser

variable {σ Pos Err : Type}

/-! ## Raw scans -/

/-- A raw scan result is the tuple of its components. -/
theorem raw_result_eq (R : scanner.Model σ Pos Err) (sc : σ) {kind : token.Kind}
    {err : Option Err} (hkind : (R.ScanToken sc).2.1 = kind)
    (herr : (R.ScanToken sc).2.2.2 = err) :
    R.ScanToken sc = ((R.ScanToken sc).1, kind, (R.ScanToken sc).2.2.1, err) :=
  Prod.ext rfl (Prod.ext hkind (Prod.ext rfl herr))

theorem semicolon_not_eligible : token.Kind.SEMICOLON ∉ terminatorEligible := by
  decide

theorem zero_kind_not_eligible : token.Kind.ILLEGAL ∉ terminatorEligible := by
  decide

theorem eligible_ne_newline {k : token.Kind} (hk : k ∈ terminatorEligible) :
    k ≠ token.Kind.NEWLINE := by
  intro h
  subst h
  revert hk
  decide

theorem NewlineRun_tail (R : scanner.Model σ Pos Err) {d : Nat} {sc : σ}
    (h : NewlineRun R (d + 1) sc) : NewlineRun R d (R.ScanToken sc).1 := by
  intro i hi
  exact h (i + 1) (by omega)

theorem NewlineRun_head (R : scanner.Model σ Pos Err) {d : Nat} {sc : σ}
    (h : NewlineRun R (d + 1) sc) :
    R.ScanToken sc
      = ((R.ScanToken sc).1, token.Kind.NEWLINE, (R.ScanToken sc).2.2.1, none) :=
  raw_result_eq R sc (h 0 (by omega)).1 (h 0 (by omega)).2

theorem rawAfter_succ (R : scanner.Model σ Pos Err) :
    ∀ (d : Nat) (sc : σ), rawAfter R (d + 1) sc = (R.ScanToken (rawAfter R d sc)).1 := by
  intro d
  induction d with
  | zero => intro sc; rfl
  | succ d ih => intro sc; exact ih (R.ScanToken sc).1

variable [Zero Pos]

/-! ## Unfolding `ScanToken` along its four branches -/

theorem ScanToken_failure (R : scanner.Model σ Pos Err) (fuel : Nat) (s : Scanner σ Pos)
    {sc : σ} {kind : token.Kind} {lit : List Char} {e : Err}
    (hraw : R.ScanToken s.Scanner = (sc, kind, lit, some e)) :
    Scanner.ScanToken R (fuel + 1) s
      = some ((ast.Token.zero, some e), { s with Scanner := sc }) := by
  simp [Scanner.ScanToken, hraw]

theorem ScanToken_passthrough (R : scanner.Model σ Pos Err) (fuel : Nat) (s : Scanner σ Pos)
    {sc : σ} {kind : token.Kind} {lit : List Char}
    (hraw : R.ScanToken s.Scanner = (sc, kind, lit, none))
    (hkind : kind ≠ token.Kind.NEWLINE) :
    Scanner.ScanToken R (fuel + 1) s
      = some (({ PosRange := { From := R.Position s.Scanner, To := R.Position sc },
                 Kind := kind, Literal := String.mk lit }, none),
              { s with Scanner := sc }) := by
  simp [Scanner.ScanToken, hraw, hkind]

theorem ScanToken_terminator (R : scanner.Model σ Pos Err) (fuel : Nat) (s : Scanner σ Pos)
    {sc : σ} {lit : List Char}
    (hraw : R.ScanToken s.Scanner = (sc, token.Kind.NEWLINE, lit, none))
    (hlast : s.Token.Kind ∈ terminatorEligible) :
    Scanner.ScanToken R (fuel + 1) s
      = some (({ PosRange := { From := R.Position s.Scanner, To := R.Position sc },
                 Kind := token.Kind.SEMICOLON, Literal := ";" }, none),
              { s with Scanner := sc }) := by
  simp only [terminatorEligible, List.mem_cons, List.mem_singleton, List.not_mem_nil,
    or_false] at hlast
  rcases hlast with h | h | h | h | h | h | h | h | h <;>
    simp [Scanner.ScanToken, hraw, h]

theorem ScanToken_discard (R : scanner.Model σ Pos Err) (fuel : Nat) (s : Scanner σ Pos)
    {sc : σ} {lit : List Char}
    (hraw : R.ScanToken s.Scanner = (sc, token.Kind.NEWLINE, lit, none))
    (hlast : s.Token.Kind ∉ terminatorEligible) :
    Scanner.ScanToken R (fuel + 1) s
      = Scanner.ScanToken R fuel { s with Scanner := sc } := by
  simp only [terminatorEligible, List.mem_cons, List.mem_singleton, List.not_mem_nil,
    or_false, not_or] at hlast
  obtain ⟨h1, h2, h3, h4, h5, h6, h7, h8, h9⟩ := hlast
  simp only [Scanner.ScanToken, hraw, if_true]

/-! ## Fuel -/

/-- A call that returns with some fuel returns the same with more. -/
theorem ScanToken_fuel_mono (R : scanner.Model σ Pos Err) :
    ∀ (n : Nat) (s : Scanner σ Pos) (r : (ast.Token Pos × Option Err) × Scanner σ Pos),
      Scanner.ScanToken R n s = some r → ∀ m, Scanner.ScanToken R (n + m) s = some r := by
  intro n
  induction n with
  | zero => intro s r h; simp [Scanner.ScanToken] at h
  | succ n ih =>
    intro s r h m
    have hfuel : n + 1 + m = (n + m) + 1 := by omega
    rw [hfuel]
    rcases hres : R.ScanToken s.Scanner with ⟨sc, kind, lit, err⟩
    cases err with
    | some e =>
      rw [ScanToken_failure R n s hres] at h
      rw [ScanToken_failure R (n + m) s hres]
      exact h
    | none =>
      by_cases hk : kind = token.Kind.NEWLINE
      · subst hk
        by_cases hl : s.Token.Kind ∈ terminatorEligible
        · rw [ScanToken_terminator R n s hres hl] at h
          rw [ScanToken_terminator R (n + m) s hres hl]
          exact h
        · rw [ScanToken_discard R n s hres hl] at h
          rw [ScanToken_discard R (n + m) s hres hl]
          exact ih _ r h m
      · rw [ScanToken_passthrough R n s hres hk] at h
        rw [ScanToken_passthrough R (n + m) s hres hk]
        exact h

theorem ScanToken_fuel_le (R : scanner.Model σ Pos Err) {n n2 : Nat} (hle : n ≤ n2)
    {s : Scanner σ Pos} {r : (ast.Token Pos × Option Err) × Scanner σ Pos}
    (h : Scanner.ScanToken R n s = some r) : Scanner.ScanToken R n2 s = some r := by
  have := ScanToken_fuel_mono R n s r h (n2 - n)
  rwa [Nat.add_sub_cancel' hle] at this

/-! ## Runs of discarded newlines -/

/-- With a current token that is not terminator-eligible, a run of `d` newlines
is discarded: the call goes on from the raw state after the run. -/
theorem ScanToken_discard_run (R : scanner.Model σ Pos Err) :
    ∀ (d : Nat) (s : Scanner σ Pos) (fuel : Nat), NewlineRun R d s.Scanner →
      s.Token.Kind ∉ terminatorEligible →
      Scanner.ScanToken R (fuel + d) s
        = Scanner.ScanToken R fuel { s with Scanner := rawAfter R d s.Scanner } := by
  intro d
  induction d with
  | zero => intro s fuel _ _; rfl
  | succ d ih =>
    intro s fuel hrun hlast
    have hfuel : fuel + (d + 1) = (fuel + d) + 1 := by omega
    rw [hfuel, ScanToken_discard R (fuel + d) s (NewlineRun_head R hrun) hlast]
    exact ih { s with Scanner := (R.ScanToken s.Scanner).1 } fuel (NewlineRun_tail R hrun) hlast

/-! ## Frame of `ScanToken`, and `Scan` in terms of `ScanToken` -/

/-- A `ScanToken` call writes neither the current token nor the delimiter
stack. -/
theorem ScanToken_frame (R : scanner.Model σ Pos Err) :
    ∀ (n : Nat) (s : Scanner σ Pos) (r : ast.Token Pos × Option Err) (s1 : Scanner σ Pos),
      Scanner.ScanToken R n s = some (r, s1) →
      s1.Token = s.Token ∧ s1.DelimiterStack = s.DelimiterStack := by
  intro n
  induction n with
  | zero => intro s r s1 h; simp [Scanner.ScanToken] at h
  | succ n ih =>
    intro s r s1 h
    rcases hres : R.ScanToken s.Scanner with ⟨sc, kind, lit, err⟩
    cases err with
    | some e =>
      rw [ScanToken_failure R n s hres] at h
      cases h
      exact ⟨rfl, rfl⟩
    | none =>
      by_cases hk : kind = token.Kind.NEWLINE
      · subst hk
        by_cases hl : s.Token.Kind ∈ terminatorEligible
        · rw [ScanToken_terminator R n s hres hl] at h
          cases h
          exact ⟨rfl, rfl⟩
        · rw [ScanToken_discard R n s hres hl] at h
          exact ih { s with Scanner := sc } r s1 h
      · rw [ScanToken_passthrough R n s hres hk] at h
        cases h
        exact ⟨rfl, rfl⟩

theorem Scan_of_token (R : scanner.Model σ Pos Err) {fuel : Nat} {s s1 : Scanner σ Pos}
    {tok : ast.Token Pos} (h : Scanner.ScanToken R fuel s = some ((tok, none), s1)) :
    Scanner.Scan R fuel s = some (ScanResult.returned { s1 with Token := tok }) := by
  simp [Scanner.Scan, h]

theorem Scan_of_failure (R : scanner.Model σ Pos Err) {fuel : Nat} {s s1 : Scanner σ Pos}
    {tok : ast.Token Pos} {e : Err}
    (h : Scanner.ScanToken R fuel s = some ((tok, some e), s1)) :
    Scanner.Scan R fuel s = some (ScanResult.panicked e s1) := by
  simp [Scanner.Scan, h]

/-- The failure after a run of discarded newlines, as `ScanToken` returns it. -/
theorem ScanToken_failure_after_run (R : scanner.Model σ Pos Err) (fuel d : Nat)
    (s : Scanner σ Pos) {sc : σ} {kind : token.Kind} {lit : List Char} {e : Err}
    (hrun : NewlineRun R d s.Scanner)
    (hlast : 0 < d → s.Token.Kind ∉ terminatorEligible)
    (hfail : R.ScanToken (rawAfter R d s.Scanner) = (sc, kind, lit, some e)) :
    Scanner.ScanToken R (fuel + d + 1) s
      = some ((ast.Token.zero, some e), { s with Scanner := sc }) := by
  cases d with
  | zero => exact ScanToken_failure R fuel s hfail
  | succ d =>
    have hfuel : fuel + (d + 1) + 1 = (fuel + 1) + (d + 1) := by omega
    rw [hfuel, ScanToken_discard_run R (d + 1) s (fuel + 1) hrun (hlast (by omega))]
    exact ScanToken_failure R fuel _ hfail

/-- The token after a run of discarded newlines, as `ScanToken` returns it. -/
theorem ScanToken_token_after_run (R : scanner.Model σ Pos Err) (fuel d : Nat)
    (s : Scanner σ Pos) {sc : σ} {kind : token.Kind} {lit : List Char}
    (hrun : NewlineRun R d s.Scanner)
    (hlast : 0 < d → s.Token.Kind ∉ terminatorEligible)
    (htok : R.ScanToken (rawAfter R d s.Scanner) = (sc, kind, lit, none))
    (hkind : kind ≠ token.Kind.NEWLINE) :
    Scanner.ScanToken R (fuel + d + 1) s
      = some (({ PosRange := { From := R.Position (rawAfter R d s.Scanner),
                               To := R.Position sc },
                 Kind := kind, Literal := String.mk lit }, none),
              { s with Scanner := sc }) := by
  cases d with
  | zero => exact ScanToken_passthrough R fuel s htok hkind
  | succ d =>
    have hfuel : fuel + (d + 1) + 1 = (fuel + 1) + (d + 1) := by omega
    rw [hfuel, ScanToken_discard_run R (d + 1) s (fuel + 1) hrun (hlast (by omega))]
    exact ScanToken_passthrough R fuel _ htok hkind

/-! ## Repeated `Scan` calls -/

theorem Scan_fuel_le (R : scanner.Model σ Pos Err) {n n2 : Nat} (hle : n ≤ n2)
    {s : Scanner σ Pos} {r : ScanResult σ Pos Err}
    (h : Scanner.Scan R n s = some r) : Scanner.Scan R n2 s = some r := by
  unfold Scanner.Scan at h ⊢
  cases hs : Scanner.ScanToken R n s with
  | none => rw [hs] at h; cases h
  | some res =>
    rw [hs] at h
    rw [ScanToken_fuel_le R hle hs]
    exact h

theorem ScanN_returned (R : scanner.Model σ Pos Err) {fuel n : Nat}
    {s s1 : Scanner σ Pos} {toks : List (ast.Token Pos)} {r : ScanResult σ Pos Err}
    (h1 : Scanner.Scan R fuel s = some (ScanResult.returned s1))
    (h2 : Scanner.ScanN R fuel n s1 = some (toks, r)) :
    Scanner.ScanN R fuel (n + 1) s = some (s1.Token :: toks, r) := by
  simp [Scanner.ScanN, h1, h2]

theorem ScanN_panicked (R : scanner.Model σ Pos Err) {fuel : Nat} (n : Nat)
    {s s1 : Scanner σ Pos} {e : Err}
    (h1 : Scanner.Scan R fuel s = some (ScanResult.panicked e s1)) :
    Scanner.ScanN R fuel (n + 1) s = some ([], ScanResult.panicked e s1) := by
  simp [Scanner.ScanN, h1]

/-- What a run of `n + 1` calls that gives a result is made of. -/
theorem ScanN_succ_inv (R : scanner.Model σ Pos Err) {fuel n : Nat}
    {s : Scanner σ Pos} {toks : List (ast.Token Pos)} {r : ScanResult σ Pos Err}
    (h : Scanner.ScanN R fuel (n + 1) s = some (toks, r)) :
    (∃ e s1, Scanner.Scan R fuel s = some (ScanResult.panicked e s1) ∧
        toks = [] ∧ r = ScanResult.panicked e s1) ∨
    (∃ s1 rest, Scanner.Scan R fuel s = some (ScanResult.returned s1) ∧
        Scanner.ScanN R fuel n s1 = some (rest, r) ∧ toks = s1.Token :: rest) := by
  unfold Scanner.ScanN at h
  cases hs : Scanner.Scan R fuel s with
  | none => rw [hs] at h; cases h
  | some res =>
    rw [hs] at h
    cases res with
    | panicked e s1 =>
      simp only [Option.some.injEq, Prod.mk.injEq] at h
      exact Or.inl ⟨e, s1, rfl, h.1.symm, h.2.symm⟩
    | returned s1 =>
      cases hn : Scanner.ScanN R fuel n s1 with
      | none => simp [hn] at h
      | some p =>
        obtain ⟨rest, r1⟩ := p
        simp only [hn, Option.some.injEq, Prod.mk.injEq] at h
        exact Or.inr ⟨s1, rest, rfl, by rw [← h.2]; exact hn, h.1.symm⟩

theorem ScanN_fuel_le (R : scanner.Model σ Pos Err) {f f2 : Nat} (hle : f ≤ f2) :
    ∀ (n : Nat) (s : Scanner σ Pos) (toks : List (ast.Token Pos)) (r : ScanResult σ Pos Err),
      Scanner.ScanN R f n s = some (toks, r) → Scanner.ScanN R f2 n s = some (toks, r) := by
  intro n
  induction n with
  | zero => intro s toks r h; exact h
  | succ n ih =>
    intro s toks r h
    rcases ScanN_succ_inv R h with ⟨e, s1, h1, rfl, rfl⟩ | ⟨s1, rest, h1, h2, rfl⟩
    · exact ScanN_panicked R n (Scan_fuel_le R hle h1)
    · exact ScanN_returned R (Scan_fuel_le R hle h1) (ih s1 rest r h2)

/-- A run of `a` calls that all returned, followed by a run of `b` calls. -/
theorem ScanN_append (R : scanner.Model σ Pos Err) {fuel : Nat} (b : Nat) :
    ∀ (a : Nat) (s s1 : Scanner σ Pos) (toks toks2 : List (ast.Token Pos))
      (r : ScanResult σ Pos Err),
      Scanner.ScanN R fuel a s = some (toks, ScanResult.returned s1) →
      Scanner.ScanN R fuel b s1 = some (toks2, r) →
      Scanner.ScanN R fuel (a + b) s = some (toks ++ toks2, r) := by
  intro a
  induction a with
  | zero =>
    intro s s1 toks toks2 r h h2
    simp only [Scanner.ScanN, Option.some.injEq, Prod.mk.injEq,
      ScanResult.returned.injEq] at h
    obtain ⟨rfl, rfl⟩ := h
    simpa using h2
  | succ a ih =>
    intro s s1 toks toks2 r h h2
    rcases ScanN_succ_inv R h with ⟨e, s3, _, _, h3⟩ | ⟨s3, rest, h3, h4, rfl⟩
    · cases h3
    · have hcount : a + 1 + b = (a + b) + 1 := by omega
      rw [hcount]
      exact ScanN_returned R h3 (ih s3 s1 rest toks2 r h4 h2)

/-! ## Repeated `Scan` calls against the reference filter -/

/-- A discarded newline in front of a run of calls costs one unit of fuel and
changes nothing else. -/
theorem ScanN_discard (R : scanner.Model σ Pos Err) {f n : Nat} {s : Scanner σ Pos}
    {sc : σ} {lit : List Char} {toks : List (ast.Token Pos)} {r : ScanResult σ Pos Err}
    (hraw : R.ScanToken s.Scanner = (sc, token.Kind.NEWLINE, lit, none))
    (hlast : s.Token.Kind ∉ terminatorEligible)
    (h : Scanner.ScanN R f (n + 1) { s with Scanner := sc } = some (toks, r)) :
    Scanner.ScanN R (f + 1) (n + 1) s = some (toks, r) := by
  have hscan : Scanner.Scan R (f + 1) s = Scanner.Scan R f { s with Scanner := sc } := by
    unfold Scanner.Scan
    rw [ScanToken_discard R f s hraw hlast]
  rcases ScanN_succ_inv R h with ⟨e, s1, h1, rfl, rfl⟩ | ⟨s1, rest, h1, h2, rfl⟩
  · exact ScanN_panicked R n (hscan.trans h1)
  · exact ScanN_returned R (hscan.trans h1) (ScanN_fuel_le R (Nat.le_succ f) n s1 rest r h2)

/-- From any filter state: when the raw scanner yields `raw`, as many `Scan`
calls as the reference filter emits tokens all return, and their current tokens
have the kinds and literals that the reference filter emits, `prev` starting as
the kind of the current token.  After them the raw scanner has at most a run of
`d` newlines of `raw` left, which the next call discards. -/
theorem ScanN_matches_reference (R : scanner.Model σ Pos Err) :
    ∀ (raw : List (token.Kind × List Char)) (s : Scanner σ Pos) (fuel : Nat),
      Yields R s.Scanner raw → raw.length ≤ fuel →
      ∃ (toks : List (ast.Token Pos)) (s1 : Scanner σ Pos) (d : Nat),
        Scanner.ScanN R fuel (referenceFilter s.Token.Kind raw).length s
          = some (toks, ScanResult.returned s1) ∧
        toks.map (fun t => (t.Kind, t.Literal)) = referenceFilter s.Token.Kind raw ∧
        d ≤ raw.length ∧ NewlineRun R d s1.Scanner ∧
        rawAfter R d s1.Scanner = rawAfter R raw.length s.Scanner ∧
        (0 < d → s1.Token.Kind ∉ terminatorEligible) := by
  intro raw
  induction raw with
  | nil =>
    intro s fuel _ _
    exact ⟨[], s, 0, rfl, rfl, Nat.le_refl _, fun i hi => absurd hi (by omega), rfl,
      fun h => absurd h (by omega)⟩
  | cons hd rest ih =>
    intro s fuel hY hfuel
    obtain ⟨k, lit⟩ := hd
    have hY2 : (R.ScanToken s.Scanner).2 = (k, lit, none) ∧
        Yields R (R.ScanToken s.Scanner).1 rest := hY
    obtain ⟨hres, hYrest⟩ := hY2
    have hraw : R.ScanToken s.Scanner = ((R.ScanToken s.Scanner).1, k, lit, none) :=
      Prod.ext rfl hres
    have hlen : rest.length + 1 ≤ fuel := by simpa using hfuel
    by_cases hk : k = token.Kind.NEWLINE
    · subst hk
      by_cases hl : s.Token.Kind ∈ terminatorEligible
      · -- the newline becomes a terminator
        have href : referenceFilter s.Token.Kind ((token.Kind.NEWLINE, lit) :: rest)
            = (token.Kind.SEMICOLON, ";") :: referenceFilter token.Kind.SEMICOLON rest := by
          simp [referenceFilter, hl]
        have hscan := Scan_fuel_le R (show 1 ≤ fuel by omega)
          (Scan_of_token R (ScanToken_terminator R 0 s hraw hl))
        obtain ⟨toks, s1, d, hN, hmap, hd, hrun, hafter, hlast⟩ :
            ∃ (toks : List (ast.Token Pos)) (s1 : Scanner σ Pos) (d : Nat),
              Scanner.ScanN R fuel (referenceFilter token.Kind.SEMICOLON rest).length
                  { Scanner := (R.ScanToken s.Scanner).1,
                    Token := { PosRange := { From := R.Position s.Scanner,
                                             To := R.Position (R.ScanToken s.Scanner).1 },
                               Kind := token.Kind.SEMICOLON, Literal := ";" },
                    DelimiterStack := s.DelimiterStack }
                = some (toks, ScanResult.returned s1) ∧
              toks.map (fun t => (t.Kind, t.Literal))
                = referenceFilter token.Kind.SEMICOLON rest ∧
              d ≤ rest.length ∧ NewlineRun R d s1.Scanner ∧
              rawAfter R d s1.Scanner = rawAfter R rest.length (R.ScanToken s.Scanner).1 ∧
              (0 < d → s1.Token.Kind ∉ terminatorEligible) :=
          ih
            { Scanner := (R.ScanToken s.Scanner).1,
              Token := { PosRange := { From := R.Position s.Scanner,
                                       To := R.Position (R.ScanToken s.Scanner).1 },
                         Kind := token.Kind.SEMICOLON, Literal := ";" },
              DelimiterStack := s.DelimiterStack }
            fuel hYrest (by omega)
        rw [href]
        refine ⟨_ :: toks, s1, d, ScanN_returned R hscan hN, ?_, ?_, hrun, hafter, hlast⟩
        · simp [hmap]
        · simp only [List.length_cons]; omega
      · -- the newline is discarded
        have href : referenceFilter s.Token.Kind ((token.Kind.NEWLINE, lit) :: rest)
            = referenceFilter s.Token.Kind rest := by
          simp [referenceFilter, hl]
        obtain ⟨f, rfl⟩ : ∃ f, fuel = f + 1 := ⟨fuel - 1, by omega⟩
        obtain ⟨toks, s1, d, hN, hmap, hd, hrun, hafter, hlast⟩ :
            ∃ (toks : List (ast.Token Pos)) (s1 : Scanner σ Pos) (d : Nat),
              Scanner.ScanN R f (referenceFilter s.Token.Kind rest).length
                  { s with Scanner := (R.ScanToken s.Scanner).1 }
                = some (toks, ScanResult.returned s1) ∧
              toks.map (fun t => (t.Kind, t.Literal)) = referenceFilter s.Token.Kind rest ∧
              d ≤ rest.length ∧ NewlineRun R d s1.Scanner ∧
              rawAfter R d s1.Scanner = rawAfter R rest.length (R.ScanToken s.Scanner).1 ∧
              (0 < d → s1.Token.Kind ∉ terminatorEligible) :=
          ih { s with Scanner := (R.ScanToken s.Scanner).1 } f hYrest (by omega)
        rw [href]
        cases hm : (referenceFilter s.Token.Kind rest).length with
        | zero =>
          rw [hm] at hN
          simp only [Scanner.ScanN, Option.some.injEq, Prod.mk.injEq,
            ScanResult.returned.injEq] at hN
          obtain ⟨rfl, rfl⟩ := hN
          refine ⟨[], s, d + 1, rfl, hmap, ?_, ?_, hafter, fun _ => hl⟩
          · simp only [List.length_cons]; omega
          · intro i hi
            cases i with
            | zero => exact ⟨congrArg (fun x => x.1) hres, congrArg (fun x => x.2.2) hres⟩
            | succ i => exact hrun i (by omega)
        | succ m =>
          rw [hm] at hN
          refine ⟨toks, s1, d, ScanN_discard R hraw hl hN, hmap, ?_, hrun, hafter, hlast⟩
          simp only [List.length_cons]; omega
    · -- a raw token that is not a newline passes through
      have href : referenceFilter s.Token.Kind ((k, lit) :: rest)
          = (k, String.mk lit) :: referenceFilter k rest := by
        simp [referenceFilter, hk]
      have hscan := Scan_fuel_le R (show 1 ≤ fuel by omega)
        (Scan_of_token R (ScanToken_passthrough R 0 s hraw hk))
      obtain ⟨toks, s1, d, hN, hmap, hd, hrun, hafter, hlast⟩ :
          ∃ (toks : List (ast.Token Pos)) (s1 : Scanner σ Pos) (d : Nat),
            Scanner.ScanN R fuel (referenceFilter k rest).length
                { Scanner := (R.ScanToken s.Scanner).1,
                  Token := { PosRange := { From := R.Position s.Scanner,
                                           To := R.Position (R.ScanToken s.Scanner).1 },
                             Kind := k, Literal := String.mk lit },
                  DelimiterStack := s.DelimiterStack }
              = some (toks, ScanResult.returned s1) ∧
            toks.map (fun t => (t.Kind, t.Literal)) = referenceFilter k rest ∧
            d ≤ rest.length ∧ NewlineRun R d s1.Scanner ∧
            rawAfter R d s1.Scanner = rawAfter R rest.length (R.ScanToken s.Scanner).1 ∧
            (0 < d → s1.Token.Kind ∉ terminatorEligible) :=
        ih
          { Scanner := (R.ScanToken s.Scanner).1,
            Token := { PosRange := { From := R.Position s.Scanner,
                                     To := R.Position (R.ScanToken s.Scanner).1 },
                       Kind := k, Literal := String.mk lit },
            DelimiterStack := s.DelimiterStack }
          fuel hYrest (by omega)
      rw [href]
      refine ⟨_ :: toks, s1, d, ScanN_returned R hscan hN, ?_, ?_, hrun, hafter, hlast⟩
      · simp [hmap]
      · simp only [List.length_cons]; omega

/-! ## The contract of one `ScanToken` call -/

/-- C1: when the next raw scan succeeds with `(kind, lit)` and `kind` is not
`NEWLINE`, `ScanToken` returns, for every positive fuel and whatever the current
token is, the token of that kind and literal with the range from the raw
position before the scan to the raw position after it, and a `nil` error; the
raw scanner is left in the state after that one scan. -/
theorem ScanToken_non_newline (R : scanner.Model σ Pos Err) (fuel : Nat) (s : Scanner σ Pos)
    (sc : σ) (kind : token.Kind) (lit : List Char)
    (hraw : R.ScanToken s.Scanner = (sc, kind, lit, none))
    (hkind : kind ≠ token.Kind.NEWLINE) :
    Scanner.ScanToken R (fuel + 1) s
      = some (({ PosRange := { From := R.Position s.Scanner, To := R.Position sc },
                 Kind := kind, Literal := String.mk lit }, none),
              { Scanner := sc, Token := s.Token, DelimiterStack := s.DelimiterStack }) :=
  ScanToken_passthrough R fuel s hraw hkind


theorem ScanToken_non_newline_witness :
    Replay.model.ScanToken (Replay.start [(token.Kind.IDENT, "x", none)]).Scanner
      = ({ Position := 1, pending := [] }, token.Kind.IDENT, "x".toList, none) ∧
    token.Kind.IDENT ≠ token.Kind.NEWLINE ∧
    Scanner.ScanToken Replay.model 1 (Replay.start [(token.Kind.IDENT, "x", none)])
      = some (({ PosRange := { From := 0, To := 1 }, Kind := token.Kind.IDENT,
                 Literal := "x" }, none),
              { Scanner := { Position := 1, pending := [] }, Token := ast.Token.zero,
                DelimiterStack := [] }) :=
  ⟨rfl, by decide,
   ScanToken_non_newline Replay.model 0 (Replay.start [(token.Kind.IDENT, "x", none)])
     { Position := 1, pending := [] } token.Kind.IDENT "x".toList rfl (by decide)⟩

/-- C2: when the current token has a terminator-eligible kind and the next raw
scan succeeds with kind `NEWLINE`, `ScanToken` returns, for every positive fuel,
the token `SEMICOLON` with literal `";"` and a `nil` error; its range goes from
the raw position before the newline scan to the raw position after it, and the
raw scanner is left in the state after that one scan. -/
theorem ScanToken_newline_after_eligible (R : scanner.Model σ Pos Err) (fuel : Nat)
    (s : Scanner σ Pos) (sc : σ) (lit : List Char)
    (hlast : s.Token.Kind ∈ [token.Kind.IDENT, token.Kind.RBRACE, token.Kind.RBRACK,
      token.Kind.RPAREN, token.Kind.BREAK, token.Kind.CONTINUE, token.Kind.RETURN,
      token.Kind.INC, token.Kind.DEC])
    (hraw : R.ScanToken s.Scanner = (sc, token.Kind.NEWLINE, lit, none)) :
    Scanner.ScanToken R (fuel + 1) s
      = some (({ PosRange := { From := R.Position s.Scanner, To := R.Position sc },
                 Kind := token.Kind.SEMICOLON, Literal := ";" }, none),
              { Scanner := sc, Token := s.Token, DelimiterStack := s.DelimiterStack }) :=
  ScanToken_terminator R fuel s hraw hlast


theorem ScanToken_newline_after_eligible_witness :
    Scanner.ScanToken Replay.model 1
        { Scanner := { Position := 6, pending := [(token.Kind.NEWLINE, "\n", none)] },
          Token := { PosRange := { From := 0, To := 6 }, Kind := token.Kind.RETURN,
                     Literal := "return" },
          DelimiterStack := [] }
      = some (({ PosRange := { From := 6, To := 7 }, Kind := token.Kind.SEMICOLON,
                 Literal := ";" }, none),
              { Scanner := { Position := 7, pending := [] },
                Token := { PosRange := { From := 0, To := 6 }, Kind := token.Kind.RETURN,
                           Literal := "return" },
                DelimiterStack := [] }) :=
  ScanToken_newline_after_eligible Replay.model 0
    { Scanner := { Position := 6, pending := [(token.Kind.NEWLINE, "\n", none)] },
      Token := { PosRange := { From := 0, To := 6 }, Kind := token.Kind.RETURN,
                 Literal := "return" },
      DelimiterStack := [] }
    { Position := 7, pending := [] } "\n".toList (by decide) rfl

/-- C3: when the current token has a kind outside the terminator-eligible set
and the next raw scan succeeds with kind `NEWLINE`, the call behaves as the call
on the state `s1` in which only the raw scanner has moved past that newline (the
current token and the delimiter stack are those of `s`): with one more unit of
fuel it gives the same result; it returns `r` exactly when the call on `s1`
returns `r`; and when the raw scan after the newline succeeds with a kind that is
not `NEWLINE`, that token is returned, its range starting at the raw position
after the newline. -/
theorem ScanToken_newline_after_other (R : scanner.Model σ Pos Err) (s : Scanner σ Pos)
    (sc : σ) (lit : List Char)
    (hlast : s.Token.Kind ∉ [token.Kind.IDENT, token.Kind.RBRACE, token.Kind.RBRACK,
      token.Kind.RPAREN, token.Kind.BREAK, token.Kind.CONTINUE, token.Kind.RETURN,
      token.Kind.INC, token.Kind.DEC])
    (hraw : R.ScanToken s.Scanner = (sc, token.Kind.NEWLINE, lit, none)) :
    (∀ fuel, Scanner.ScanToken R (fuel + 1) s
        = Scanner.ScanToken R fuel
            { Scanner := sc, Token := s.Token, DelimiterStack := s.DelimiterStack }) ∧
    (∀ r, (∃ fuel, Scanner.ScanToken R fuel s = some r) ↔
        (∃ fuel, Scanner.ScanToken R fuel
            { Scanner := sc, Token := s.Token, DelimiterStack := s.DelimiterStack } = some r)) ∧
    (∀ (sc2 : σ) (kind2 : token.Kind) (lit2 : List Char),
        R.ScanToken sc = (sc2, kind2, lit2, none) → kind2 ≠ token.Kind.NEWLINE →
        ∀ fuel, Scanner.ScanToken R (fuel + 2) s
          = some (({ PosRange := { From := R.Position sc, To := R.Position sc2 },
                     Kind := kind2, Literal := String.mk lit2 }, none),
                  { Scanner := sc2, Token := s.Token, DelimiterStack := s.DelimiterStack })) := by
  have hstep := fun fuel => ScanToken_discard R fuel s hraw hlast
  refine ⟨hstep, ?_, ?_⟩
  · intro r
    constructor
    · rintro ⟨fuel, h⟩
      cases fuel with
      | zero => simp [Scanner.ScanToken] at h
      | succ fuel => exact ⟨fuel, by rw [← hstep fuel]; exact h⟩
    · rintro ⟨fuel, h⟩
      exact ⟨fuel + 1, by rw [hstep fuel]; exact h⟩
  · intro sc2 kind2 lit2 hraw2 hkind2 fuel
    rw [hstep (fuel + 1)]
    exact ScanToken_passthrough R fuel _ hraw2 hkind2


theorem ScanToken_newline_after_other_witness :
    Scanner.ScanToken Replay.model 2
        { Scanner := { Position := 1,
                       pending := [(token.Kind.NEWLINE, "\n", none),
                                   (token.Kind.IDENT, "y", none)] },
          Token := { PosRange := { From := 0, To := 1 }, Kind := token.Kind.PLUS,
                     Literal := "+" },
          DelimiterStack := [] }
      = some (({ PosRange := { From := 2, To := 3 }, Kind := token.Kind.IDENT,
                 Literal := "y" }, none),
              { Scanner := { Position := 3, pending := [] },
                Token := { PosRange := { From := 0, To := 1 }, Kind := token.Kind.PLUS,
                           Literal := "+" },
                DelimiterStack := [] }) :=
  (ScanToken_newline_after_other Replay.model
    { Scanner := { Position := 1,
                   pending := [(token.Kind.NEWLINE, "\n", none),
                               (token.Kind.IDENT, "y", none)] },
      Token := { PosRange := { From := 0, To := 1 }, Kind := token.Kind.PLUS,
                 Literal := "+" },
      DelimiterStack := [] }
    { Position := 2, pending := [(token.Kind.IDENT, "y", none)] } "\n".toList
    (by decide) rfl).2.2
    { Position := 3, pending := [] } token.Kind.IDENT "y".toList rfl (by decide) 0

/-- C4: when a raw scan of a `ScanToken` call fails with error `e` - the first
one (`d = 0`), or the one after `d` newlines that the call discards - the call
returns the zero-value token together with exactly `e`, and the raw scanner is
left in the state `sc` right after the failed scan: nothing is scanned after the
failure.  Fuel `d + 1`, one unit for each raw scan, is enough. -/
theorem ScanToken_propagates_failure (R : scanner.Model σ Pos Err) (fuel d : Nat)
    (s : Scanner σ Pos) (sc : σ) (kind : token.Kind) (lit : List Char) (e : Err)
    (hrun : NewlineRun R d s.Scanner)
    (hlast : 0 < d → s.Token.Kind ∉ terminatorEligible)
    (hfail : R.ScanToken (rawAfter R d s.Scanner) = (sc, kind, lit, some e)) :
    Scanner.ScanToken R (fuel + d + 1) s
      = some ((ast.Token.zero, some e),
              { Scanner := sc, Token := s.Token, DelimiterStack := s.DelimiterStack }) :=
  ScanToken_failure_after_run R fuel d s hrun hlast hfail

theorem ScanToken_propagates_failure_witness :
    Scanner.ScanToken Replay.model 2
        (Replay.start [(token.Kind.NEWLINE, "\n", none),
                       (token.Kind.ILLEGAL, "", some "unterminated string")])
      = some ((ast.Token.zero, some "unterminated string"),
              { Scanner := { Position := 2, pending := [] }, Token := ast.Token.zero,
                DelimiterStack := [] }) :=
  ScanToken_propagates_failure Replay.model 0 1
    (Replay.start [(token.Kind.NEWLINE, "\n", none),
                   (token.Kind.ILLEGAL, "", some "unterminated string")])
    { Position := 2, pending := [] } token.Kind.ILLEGAL [] "unterminated string"
    (by intro i hi
        have hi0 : i = 0 := by omega
        subst hi0
        exact ⟨rfl, rfl⟩)
    (fun _ => by decide) rfl

/-! ## `Scan` and the current token -/

/-- C5, counterexample: from the initial filter over the raw tokens `x`, newline,
`y`, `ScanToken` returns the token `IDENT "x"`, yet the filter it leaves still
has the zero-value current token, not the returned one; the next `ScanToken`
call therefore consults the zero kind, discards the newline and returns
`IDENT "y"` instead of a `SEMICOLON`. -/
theorem ScanToken_keeps_current_token_counterexample :
    Scanner.ScanToken Replay.model 1
        (Replay.start [(token.Kind.IDENT, "x", none), (token.Kind.NEWLINE, "\n", none),
                       (token.Kind.IDENT, "y", none)])
      = some (({ PosRange := { From := 0, To := 1 }, Kind := token.Kind.IDENT,
                 Literal := "x" }, none),
              { Scanner := { Position := 1,
                             pending := [(token.Kind.NEWLINE, "\n", none),
                                         (token.Kind.IDENT, "y", none)] },
                Token := ast.Token.zero, DelimiterStack := [] }) ∧
    (ast.Token.zero : ast.Token Nat)
      ≠ { PosRange := { From := 0, To := 1 }, Kind := token.Kind.IDENT, Literal := "x" } ∧
    Scanner.ScanToken Replay.model 2
        { Scanner := { Position := 1,
                       pending := [(token.Kind.NEWLINE, "\n", none),
                                   (token.Kind.IDENT, "y", none)] },
          Token := ast.Token.zero, DelimiterStack := [] }
      = some (({ PosRange := { From := 2, To := 3 }, Kind := token.Kind.IDENT,
                 Literal := "y" }, none),
              { Scanner := { Position := 3, pending := [] },
                Token := ast.Token.zero, DelimiterStack := [] }) := by
  refine ⟨by decide, by decide, by decide⟩

/-- C5, amended: when the underlying `ScanToken` call returns the token `tok`
(passed through or a synthesized `SEMICOLON`), `ScanToken` itself leaves the
current token as it was, and it is `Scan` that makes `tok` the current token.
On the next call the newline rule consults the kind of `tok`: a newline scanned
next gives a `SEMICOLON` when that kind is terminator-eligible and is discarded
otherwise. -/
theorem Scan_sets_last_token (R : scanner.Model σ Pos Err) (fuel : Nat)
    (s s1 : Scanner σ Pos) (tok : ast.Token Pos)
    (h : Scanner.ScanToken R fuel s = some ((tok, none), s1)) :
    s1.Token = s.Token ∧
    Scanner.Scan R fuel s
      = some (ScanResult.returned
          { Scanner := s1.Scanner, Token := tok, DelimiterStack := s1.DelimiterStack }) ∧
    (∀ (sc : σ) (lit : List Char) (n : Nat),
        R.ScanToken s1.Scanner = (sc, token.Kind.NEWLINE, lit, none) →
        (tok.Kind ∈ terminatorEligible →
          Scanner.ScanToken R (n + 1)
              { Scanner := s1.Scanner, Token := tok, DelimiterStack := s1.DelimiterStack }
            = some (({ PosRange := { From := R.Position s1.Scanner, To := R.Position sc },
                       Kind := token.Kind.SEMICOLON, Literal := ";" }, none),
                    { Scanner := sc, Token := tok, DelimiterStack := s1.DelimiterStack })) ∧
        (tok.Kind ∉ terminatorEligible →
          Scanner.ScanToken R (n + 1)
              { Scanner := s1.Scanner, Token := tok, DelimiterStack := s1.DelimiterStack }
            = Scanner.ScanToken R n
                { Scanner := sc, Token := tok, DelimiterStack := s1.DelimiterStack })) := by
  refine ⟨(ScanToken_frame R fuel s _ s1 h).1, Scan_of_token R h, ?_⟩
  intro sc lit n hraw
  exact ⟨fun hel => ScanToken_terminator R n _ hraw hel,
         fun hel => ScanToken_discard R n _ hraw hel⟩

theorem Scan_sets_last_token_witness :
    Scanner.Scan Replay.model 1
        (Replay.start [(token.Kind.IDENT, "x", none), (token.Kind.NEWLINE, "\n", none),
                       (token.Kind.IDENT, "y", none)])
      = some (ScanResult.returned
          { Scanner := { Position := 1,
                         pending := [(token.Kind.NEWLINE, "\n", none),
                                     (token.Kind.IDENT, "y", none)] },
            Token := { PosRange := { From := 0, To := 1 }, Kind := token.Kind.IDENT,
                       Literal := "x" },
            DelimiterStack := [] }) :=
  (Scan_sets_last_token Replay.model 1
    (Replay.start [(token.Kind.IDENT, "x", none), (token.Kind.NEWLINE, "\n", none),
                   (token.Kind.IDENT, "y", none)])
    { Scanner := { Position := 1,
                   pending := [(token.Kind.NEWLINE, "\n", none),
                               (token.Kind.IDENT, "y", none)] },
      Token := ast.Token.zero, DelimiterStack := [] }
    { PosRange := { From := 0, To := 1 }, Kind := token.Kind.IDENT, Literal := "x" }
    (by decide)).2.1

/-- C6: when the underlying `ScanToken` call succeeds with the token `t`, `Scan`
returns and the current token of the filter is then exactly `t`, whatever token
was stored before; the raw scanner is as `ScanToken` left it and the delimiter
stack is the one from before the call. -/
theorem Scan_stores_token (R : scanner.Model σ Pos Err) (fuel : Nat)
    (s s1 : Scanner σ Pos) (t : ast.Token Pos)
    (h : Scanner.ScanToken R fuel s = some ((t, none), s1)) :
    Scanner.Scan R fuel s
      = some (ScanResult.returned
          { Scanner := s1.Scanner, Token := t, DelimiterStack := s.DelimiterStack }) := by
  rw [Scan_of_token R h, (ScanToken_frame R fuel s _ s1 h).2]

theorem Scan_stores_token_witness :
    Scanner.Scan Replay.model 1
        { Scanner := { Position := 6, pending := [(token.Kind.NEWLINE, "\n", none)] },
          Token := { PosRange := { From := 0, To := 6 }, Kind := token.Kind.RETURN,
                     Literal := "return" },
          DelimiterStack := [[1]] }
      = some (ScanResult.returned
          { Scanner := { Position := 7, pending := [] },
            Token := { PosRange := { From := 6, To := 7 }, Kind := token.Kind.SEMICOLON,
                       Literal := ";" },
            DelimiterStack := [[1]] }) :=
  Scan_stores_token Replay.model 1
    { Scanner := { Position := 6, pending := [(token.Kind.NEWLINE, "\n", none)] },
      Token := { PosRange := { From := 0, To := 6 }, Kind := token.Kind.RETURN,
                 Literal := "return" },
      DelimiterStack := [[1]] }
    { Scanner := { Position := 7, pending := [] },
      Token := { PosRange := { From := 0, To := 6 }, Kind := token.Kind.RETURN,
                 Literal := "return" },
      DelimiterStack := [[1]] }
    { PosRange := { From := 6, To := 7 }, Kind := token.Kind.SEMICOLON, Literal := ";" }
    (by decide)

/-- C7, counterexample: over a raw scanner whose first scan fails, `Scan` ends
in a panic that carries the error; with no amount of fuel does it return to its
caller. -/
theorem Scan_raw_failure_counterexample :
    Scanner.Scan Replay.model 1
        (Replay.start [(token.Kind.ILLEGAL, "", some "unterminated string")])
      = some (ScanResult.panicked "unterminated string"
          { Scanner := { Position := 1, pending := [] }, Token := ast.Token.zero,
            DelimiterStack := [] }) ∧
    ∀ (fuel : Nat) (s1 : Scanner Replay Nat),
      Scanner.Scan Replay.model fuel
          (Replay.start [(token.Kind.ILLEGAL, "", some "unterminated string")])
        ≠ some (ScanResult.returned s1) := by
  refine ⟨by decide, ?_⟩
  intro fuel s1
  cases fuel with
  | zero => simp [Scanner.Scan, Scanner.ScanToken]
  | succ fuel =>
    have hraw : Replay.model.ScanToken
        (Replay.start [(token.Kind.ILLEGAL, "", some "unterminated string")]).Scanner
        = ({ Position := 1, pending := [] }, token.Kind.ILLEGAL, [],
           some "unterminated string") := rfl
    rw [Scan_of_failure Replay.model (ScanToken_failure Replay.model fuel _ hraw)]
    simp

/-- C7, amended: when a raw scan of the underlying `ScanToken` call fails with
error `e` (the first one, or the one after `d` discarded newlines), `Scan` does
not return to its caller: it panics with exactly `e`.  The failure is not
surfaced as a result value. -/
theorem Scan_panics_on_raw_failure (R : scanner.Model σ Pos Err) (fuel d : Nat)
    (s : Scanner σ Pos) (sc : σ) (kind : token.Kind) (lit : List Char) (e : Err)
    (hrun : NewlineRun R d s.Scanner)
    (hlast : 0 < d → s.Token.Kind ∉ terminatorEligible)
    (hfail : R.ScanToken (rawAfter R d s.Scanner) = (sc, kind, lit, some e)) :
    Scanner.Scan R (fuel + d + 1) s
      = some (ScanResult.panicked e
          { Scanner := sc, Token := s.Token, DelimiterStack := s.DelimiterStack }) :=
  Scan_of_failure R (ScanToken_failure_after_run R fuel d s hrun hlast hfail)

theorem Scan_panics_on_raw_failure_witness :
    Scanner.Scan Replay.model 1
        { Scanner := { Position := 1,
                       pending := [(token.Kind.ILLEGAL, "", some "invalid rune")] },
          Token := { PosRange := { From := 0, To := 1 }, Kind := token.Kind.IDENT,
                     Literal := "x" },
          DelimiterStack := [] }
      = some (ScanResult.panicked "invalid rune"
          { Scanner := { Position := 2, pending := [] },
            Token := { PosRange := { From := 0, To := 1 }, Kind := token.Kind.IDENT,
                       Literal := "x" },
            DelimiterStack := [] }) :=
  Scan_panics_on_raw_failure Replay.model 0 0
    { Scanner := { Position := 1,
                   pending := [(token.Kind.ILLEGAL, "", some "invalid rune")] },
      Token := { PosRange := { From := 0, To := 1 }, Kind := token.Kind.IDENT,
                 Literal := "x" },
      DelimiterStack := [] }
    { Position := 2, pending := [] } token.Kind.ILLEGAL [] "invalid rune"
    (fun i hi => absurd hi (by omega)) (fun h => absurd h (by omega)) rfl

/-! ## Runs of newlines under repeated `Scan` calls -/

/-- C8: let the raw scanner give a token of a terminator-eligible kind `k`, then
`N ≥ 1` newlines, then a token of a kind `kt` that is not `NEWLINE`.  Three `Scan`
calls, with fuel `N` or more, all return, and the successive current tokens are
the `k` token, one `SEMICOLON` `";"` (spanning the first newline) and the `kt`
token: one terminator for the `N` newlines.  The three calls consume all `N + 2`
raw tokens. -/
theorem Scan_newline_run_one_terminator (R : scanner.Model σ Pos Err) (fuel N : Nat)
    (s : Scanner σ Pos) (sc1 sc2 : σ) (k kt : token.Kind) (lit litt : List Char)
    (hk : k ∈ [token.Kind.IDENT, token.Kind.RBRACE, token.Kind.RBRACK,
      token.Kind.RPAREN, token.Kind.BREAK, token.Kind.CONTINUE, token.Kind.RETURN,
      token.Kind.INC, token.Kind.DEC])
    (hN : 1 ≤ N)
    (hfirst : R.ScanToken s.Scanner = (sc1, k, lit, none))
    (hrun : NewlineRun R N sc1)
    (hthen : R.ScanToken (rawAfter R N sc1) = (sc2, kt, litt, none))
    (hkt : kt ≠ token.Kind.NEWLINE) :
    Scanner.ScanN R (fuel + N) 3 s
      = some ([{ PosRange := { From := R.Position s.Scanner, To := R.Position sc1 },
                 Kind := k, Literal := String.mk lit },
               { PosRange := { From := R.Position sc1, To := R.Position (rawAfter R 1 sc1) },
                 Kind := token.Kind.SEMICOLON, Literal := ";" },
               { PosRange := { From := R.Position (rawAfter R N sc1), To := R.Position sc2 },
                 Kind := kt, Literal := String.mk litt }],
              ScanResult.returned
                { Scanner := sc2,
                  Token := { PosRange := { From := R.Position (rawAfter R N sc1),
                                           To := R.Position sc2 },
                             Kind := kt, Literal := String.mk litt },
                  DelimiterStack := s.DelimiterStack }) := by
  obtain ⟨M, rfl⟩ : ∃ M, N = M + 1 := ⟨N - 1, by omega⟩
  have hfuel : 1 ≤ fuel + (M + 1) := by omega
  -- first call: the token of kind k
  have h1 := Scan_fuel_le R hfuel
    (Scan_of_token R (ScanToken_passthrough R 0 s hfirst (eligible_ne_newline hk)))
  -- second call: the first newline becomes the terminator
  have h2 := Scan_fuel_le R hfuel
    (Scan_of_token R (ScanToken_terminator R 0
      { Scanner := sc1,
        Token := { PosRange := { From := R.Position s.Scanner, To := R.Position sc1 },
                   Kind := k, Literal := String.mk lit },
        DelimiterStack := s.DelimiterStack }
      (NewlineRun_head R hrun) hk))
  -- third call: the other newlines are discarded
  have h3 := Scan_of_token R (ScanToken_token_after_run R fuel M
      { Scanner := (R.ScanToken sc1).1,
        Token := { PosRange := { From := R.Position sc1,
                                 To := R.Position (R.ScanToken sc1).1 },
                   Kind := token.Kind.SEMICOLON, Literal := ";" },
        DelimiterStack := s.DelimiterStack }
      (NewlineRun_tail R hrun) (fun _ => semicolon_not_eligible) hthen hkt)
  exact ScanN_returned R h1 (ScanN_returned R h2 (ScanN_returned R h3 rfl))

theorem Scan_newline_run_one_terminator_witness :
    Scanner.ScanN Replay.model 2 3
        (Replay.start [(token.Kind.RETURN, "return", none), (token.Kind.NEWLINE, "\n", none),
                       (token.Kind.NEWLINE, "\n", none), (token.Kind.RBRACE, "\x7d", none)])
      = some ([{ PosRange := { From := 0, To := 6 }, Kind := token.Kind.RETURN,
                 Literal := "return" },
               { PosRange := { From := 6, To := 7 }, Kind := token.Kind.SEMICOLON,
                 Literal := ";" },
               { PosRange := { From := 8, To := 9 }, Kind := token.Kind.RBRACE,
                 Literal := "\x7d" }],
              ScanResult.returned
                { Scanner := { Position := 9, pending := [] },
                  Token := { PosRange := { From := 8, To := 9 }, Kind := token.Kind.RBRACE,
                             Literal := "\x7d" },
                  DelimiterStack := [] }) :=
  Scan_newline_run_one_terminator Replay.model 0 2
    (Replay.start [(token.Kind.RETURN, "return", none), (token.Kind.NEWLINE, "\n", none),
                   (token.Kind.NEWLINE, "\n", none), (token.Kind.RBRACE, "\x7d", none)])
    { Position := 6,
      pending := [(token.Kind.NEWLINE, "\n", none), (token.Kind.NEWLINE, "\n", none),
                  (token.Kind.RBRACE, "\x7d", none)] }
    { Position := 9, pending := [] }
    token.Kind.RETURN token.Kind.RBRACE "return".toList "\x7d".toList
    (by decide) (by decide) rfl (by decide) rfl (by decide)

/-- C9: from the initial filter (zero-value current token, empty delimiter
stack), when the raw scanner gives `M ≥ 0` newlines and then a token of a kind
that is not `NEWLINE`, the first `ScanToken` call returns that token itself, with
fuel `M + 1` or more, and the first `Scan` call makes it the current token: all
the leading newlines are discarded and no `SEMICOLON` is produced. -/
theorem leading_newlines_discarded (R : scanner.Model σ Pos Err) (fuel M : Nat)
    (sc sc2 : σ) (kind : token.Kind) (lit : List Char)
    (hrun : NewlineRun R M sc)
    (hthen : R.ScanToken (rawAfter R M sc) = (sc2, kind, lit, none))
    (hkind : kind ≠ token.Kind.NEWLINE) :
    Scanner.ScanToken R (fuel + M + 1) (Scanner.init sc)
      = some (({ PosRange := { From := R.Position (rawAfter R M sc), To := R.Position sc2 },
                 Kind := kind, Literal := String.mk lit }, none),
              { Scanner := sc2, Token := ast.Token.zero, DelimiterStack := [] }) ∧
    Scanner.Scan R (fuel + M + 1) (Scanner.init sc)
      = some (ScanResult.returned
          { Scanner := sc2,
            Token := { PosRange := { From := R.Position (rawAfter R M sc),
                                     To := R.Position sc2 },
                       Kind := kind, Literal := String.mk lit },
            DelimiterStack := [] }) := by
  have h := ScanToken_token_after_run R fuel M (Scanner.init sc) hrun
    (fun _ => zero_kind_not_eligible) hthen hkind
  exact ⟨h, Scan_of_token R h⟩

theorem leading_newlines_discarded_witness :
    Scanner.ScanToken Replay.model 3
        (Replay.start [(token.Kind.NEWLINE, "\n", none), (token.Kind.NEWLINE, "\n", none),
                       (token.Kind.IDENT, "x", none)])
      = some (({ PosRange := { From := 2, To := 3 }, Kind := token.Kind.IDENT,
                 Literal := "x" }, none),
              { Scanner := { Position := 3, pending := [] }, Token := ast.Token.zero,
                DelimiterStack := [] }) :=
  (leading_newlines_discarded Replay.model 0 2
    { Position := 0,
      pending := [(token.Kind.NEWLINE, "\n", none), (token.Kind.NEWLINE, "\n", none),
                  (token.Kind.IDENT, "x", none)] }
    { Position := 3, pending := [] } token.Kind.IDENT "x".toList
    (by decide) rfl (by decide)).1

/-! ## Refinement of the reference filter -/

/-- C10: let the raw scanner, from state `sc`, yield the error-free raw tokens
`raw`.  From the initial filter, with fuel `raw.length` or more, as many `Scan`
calls as the reference filter emits tokens all return, and the kinds and
literals of the successive current tokens are exactly the output of the
reference filter on `raw` (`prev` starting as the zero kind).  Nothing more is
emitted for `raw`: when the raw scan after `raw` fails, the very next `Scan` call
panics with that error, whatever newlines of `raw` were still unread. -/
theorem Scan_refines_reference (R : scanner.Model σ Pos Err) (sc : σ)
    (raw : List (token.Kind × List Char)) (fuel : Nat)
    (hraw : Yields R sc raw) (hfuel : raw.length ≤ fuel) :
    ∃ (toks : List (ast.Token Pos)) (s1 : Scanner σ Pos),
      Scanner.ScanN R fuel (referenceFilter token.Kind.ILLEGAL raw).length (Scanner.init sc)
        = some (toks, ScanResult.returned s1) ∧
      toks.map (fun t => (t.Kind, t.Literal)) = referenceFilter token.Kind.ILLEGAL raw ∧
      ∀ (sc2 : σ) (kind : token.Kind) (lit : List Char) (e : Err) (n : Nat),
        R.ScanToken (rawAfter R raw.length sc) = (sc2, kind, lit, some e) →
        raw.length < fuel →
        Scanner.ScanN R fuel ((referenceFilter token.Kind.ILLEGAL raw).length + (n + 1))
            (Scanner.init sc)
          = some (toks, ScanResult.panicked e
              { Scanner := sc2, Token := s1.Token, DelimiterStack := s1.DelimiterStack }) := by
  obtain ⟨toks, s1, d, hN, hmap, hd, hrun, hafter, hlast⟩ :=
    ScanN_matches_reference R raw (Scanner.init sc) fuel hraw hfuel
  refine ⟨toks, s1, hN, hmap, ?_⟩
  intro sc2 kind lit e n hfail hlt
  have hfail2 : R.ScanToken (rawAfter R d s1.Scanner) = (sc2, kind, lit, some e) := by
    rw [hafter]; exact hfail
  have hpanic := Scan_fuel_le R (show 0 + d + 1 ≤ fuel by omega)
    (Scan_of_failure R (ScanToken_failure_after_run R 0 d s1 hrun hlast hfail2))
  have hall := ScanN_append R (n + 1) _ (Scanner.init sc) s1 toks [] _ hN
    (ScanN_panicked R n hpanic)
  simpa using hall

theorem Scan_refines_reference_witness :
    (∃ (toks : List (ast.Token Nat)) (s1 : Scanner Replay Nat),
      Scanner.ScanN Replay.model 3 3
          (Replay.start [(token.Kind.IDENT, "x", none), (token.Kind.NEWLINE, "\n", none),
                         (token.Kind.IDENT, "y", none)])
        = some (toks, ScanResult.returned s1) ∧
      toks.map (fun t => (t.Kind, t.Literal))
        = [(token.Kind.IDENT, "x"), (token.Kind.SEMICOLON, ";"), (token.Kind.IDENT, "y")]) ∧
    (∃ (toks : List (ast.Token Nat)) (s1 : Scanner Replay Nat),
      Scanner.ScanN Replay.model 3 2
          (Replay.start [(token.Kind.PLUS, "+", none), (token.Kind.NEWLINE, "\n", none),
                         (token.Kind.IDENT, "y", none)])
        = some (toks, ScanResult.returned s1) ∧
      toks.map (fun t => (t.Kind, t.Literal))
        = [(token.Kind.PLUS, "+"), (token.Kind.IDENT, "y")]) := by
  constructor
  · obtain ⟨toks, s1, hN, hmap, _⟩ := Scan_refines_reference Replay.model
      { Position := 0,
        pending := [(token.Kind.IDENT, "x", none), (token.Kind.NEWLINE, "\n", none),
                    (token.Kind.IDENT, "y", none)] }
      [(token.Kind.IDENT, "x".toList), (token.Kind.NEWLINE, "\n".toList),
       (token.Kind.IDENT, "y".toList)] 3 ⟨rfl, rfl, rfl, trivial⟩ (by decide)
    exact ⟨toks, s1, hN, hmap⟩
  · obtain ⟨toks, s1, hN, hmap, _⟩ := Scan_refines_reference Replay.model
      { Position := 0,
        pending := [(token.Kind.PLUS, "+", none), (token.Kind.NEWLINE, "\n", none),
                    (token.Kind.IDENT, "y", none)] }
      [(token.Kind.PLUS, "+".toList), (token.Kind.NEWLINE, "\n".toList),
       (token.Kind.IDENT, "y".toList)] 3 ⟨rfl, rfl, rfl, trivial⟩ (by decide)
    exact ⟨toks, s1, hN, hmap⟩

/-! ## Outcomes of `ScanToken` -/

/-- What a returning `ScanToken` call gives: a token of a kind other than
`NEWLINE` with a `nil` error, or the zero-value token with an error. -/
theorem ScanToken_outcome_cases (R : scanner.Model σ Pos Err) :
    ∀ (n : Nat) (s s1 : Scanner σ Pos) (tok : ast.Token Pos) (err : Option Err),
      Scanner.ScanToken R n s = some ((tok, err), s1) →
      (err = none ∧ tok.Kind ≠ token.Kind.NEWLINE) ∨
      (∃ e, err = some e ∧ tok = ast.Token.zero) := by
  intro n
  induction n with
  | zero => intro s s1 tok err h; simp [Scanner.ScanToken] at h
  | succ n ih =>
    intro s s1 tok err h
    rcases hres : R.ScanToken s.Scanner with ⟨sc, kind, lit, rerr⟩
    cases rerr with
    | some e =>
      rw [ScanToken_failure R n s hres] at h
      simp only [Option.some.injEq, Prod.mk.injEq] at h
      exact Or.inr ⟨e, h.1.2.symm, h.1.1.symm⟩
    | none =>
      by_cases hk : kind = token.Kind.NEWLINE
      · subst hk
        by_cases hl : s.Token.Kind ∈ terminatorEligible
        · rw [ScanToken_terminator R n s hres hl] at h
          simp only [Option.some.injEq, Prod.mk.injEq] at h
          refine Or.inl ⟨h.1.2.symm, ?_⟩
          rw [← h.1.1]
          show token.Kind.SEMICOLON ≠ token.Kind.NEWLINE
          decide
        · rw [ScanToken_discard R n s hres hl] at h
          exact ih { s with Scanner := sc } s1 tok err h
      · rw [ScanToken_passthrough R n s hres hk] at h
        simp only [Option.some.injEq, Prod.mk.injEq] at h
        refine Or.inl ⟨h.1.2.symm, ?_⟩
        rw [← h.1.1]
        exact hk

/-- C11: a `ScanToken` call that returns gives exactly one of two outcomes: a
`nil` error with a token whose kind is not `NEWLINE`, or an error with the
zero-value token.  The two never hold together, and in neither is the kind of
the returned token `NEWLINE`. -/
theorem ScanToken_token_or_failure (R : scanner.Model σ Pos Err) (fuel : Nat)
    (s s1 : Scanner σ Pos) (tok : ast.Token Pos) (err : Option Err)
    (h : Scanner.ScanToken R fuel s = some ((tok, err), s1)) :
    ((err = none ∧ tok.Kind ≠ token.Kind.NEWLINE) ∨
      (∃ e, err = some e ∧ tok = ast.Token.zero)) ∧
    ¬ ((err = none ∧ tok.Kind ≠ token.Kind.NEWLINE) ∧
      (∃ e, err = some e ∧ tok = ast.Token.zero)) ∧
    tok.Kind ≠ token.Kind.NEWLINE := by
  have hcases := ScanToken_outcome_cases R fuel s s1 tok err h
  refine ⟨hcases, ?_, ?_⟩
  · rintro ⟨⟨hnone, _⟩, e, hsome, _⟩
    rw [hnone] at hsome
    cases hsome
  · rcases hcases with ⟨_, hkind⟩ | ⟨e, _, hzero⟩
    · exact hkind
    · rw [hzero]
      simp [ast.Token.zero]

theorem ScanToken_token_or_failure_witness :
    (((none : Option String) = none ∧
        ({ PosRange := { From := 6, To := 7 }, Kind := token.Kind.SEMICOLON,
           Literal := ";" } : ast.Token Nat).Kind ≠ token.Kind.NEWLINE) ∨
      (∃ e, (none : Option String) = some e ∧
        ({ PosRange := { From := 6, To := 7 }, Kind := token.Kind.SEMICOLON,
           Literal := ";" } : ast.Token Nat) = ast.Token.zero)) :=
  (ScanToken_token_or_failure Replay.model 1
    { Scanner := { Position := 6, pending := [(token.Kind.NEWLINE, "\n", none)] },
      Token := { PosRange := { From := 0, To := 6 }, Kind := token.Kind.RETURN,
                 Literal := "return" },
      DelimiterStack := [] }
    { Scanner := { Position := 7, pending := [] },
      Token := { PosRange := { From := 0, To := 6 }, Kind := token.Kind.RETURN,
                 Literal := "return" },
      DelimiterStack := [] }
    { PosRange := { From := 6, To := 7 }, Kind := token.Kind.SEMICOLON, Literal := ";" }
    none (by decide)).1

/-! ## The delimiter stack plays no part -/

/-- Replacing the delimiter stack before a `ScanToken` call is the same as
replacing it after the call. -/
theorem ScanToken_replace_stack (R : scanner.Model σ Pos Err) :
    ∀ (n : Nat) (s : Scanner σ Pos) (ds : List (List Int)),
      Scanner.ScanToken R n { s with DelimiterStack := ds }
        = (Scanner.ScanToken R n s).map
            (fun p => (p.1, { p.2 with DelimiterStack := ds })) := by
  intro n
  induction n with
  | zero => intro s ds; rfl
  | succ n ih =>
    intro s ds
    rcases hres : R.ScanToken s.Scanner with ⟨sc, kind, lit, rerr⟩
    have hres2 : R.ScanToken ({ s with DelimiterStack := ds } : Scanner σ Pos).Scanner
        = (sc, kind, lit, rerr) := hres
    cases rerr with
    | some e =>
      rw [ScanToken_failure R n s hres, ScanToken_failure R n _ hres2]
      rfl
    | none =>
      by_cases hk : kind = token.Kind.NEWLINE
      · subst hk
        by_cases hl : s.Token.Kind ∈ terminatorEligible
        · rw [ScanToken_terminator R n s hres hl, ScanToken_terminator R n _ hres2 hl]
          rfl
        · rw [ScanToken_discard R n s hres hl, ScanToken_discard R n _ hres2 hl]
          exact ih { s with Scanner := sc } ds
      · rw [ScanToken_passthrough R n s hres hk, ScanToken_passthrough R n _ hres2 hk]
        rfl

/-- C12: two filter states with the same raw scanner state and the same current
token, whatever their delimiter stacks, give the same `ScanToken` outcome for
every fuel: the same token or the same failure, with the raw scanner left in the
same state (and the one call runs out of fuel exactly when the other does). -/
theorem ScanToken_independent_of_stack (R : scanner.Model σ Pos Err) (fuel : Nat)
    (s s2 : Scanner σ Pos) (hsrc : s.Scanner = s2.Scanner) (htok : s.Token = s2.Token) :
    (Scanner.ScanToken R fuel s).map (fun p => (p.1, p.2.Scanner))
      = (Scanner.ScanToken R fuel s2).map (fun p => (p.1, p.2.Scanner)) := by
  have hs2 : s2 = { s with DelimiterStack := s2.DelimiterStack } := by
    cases s
    cases s2
    simp only at hsrc htok
    subst hsrc
    subst htok
    rfl
  rw [hs2, ScanToken_replace_stack R fuel s s2.DelimiterStack]
  cases Scanner.ScanToken R fuel s with
  | none => rfl
  | some p => rfl

theorem ScanToken_independent_of_stack_witness :
    (Scanner.ScanToken Replay.model 1
        { Scanner := { Position := 6, pending := [(token.Kind.NEWLINE, "\n", none)] },
          Token := { PosRange := { From := 0, To := 6 }, Kind := token.Kind.RPAREN,
                     Literal := ")" },
          DelimiterStack := [] }).map (fun p => (p.1, p.2.Scanner))
      = (Scanner.ScanToken Replay.model 1
          { Scanner := { Position := 6, pending := [(token.Kind.NEWLINE, "\n", none)] },
            Token := { PosRange := { From := 0, To := 6 }, Kind := token.Kind.RPAREN,
                       Literal := ")" },
            DelimiterStack := [[1, 2], [3]] }).map (fun p => (p.1, p.2.Scanner)) :=
  ScanToken_independent_of_stack Replay.model 1
    { Scanner := { Position := 6, pending := [(token.Kind.NEWLINE, "\n", none)] },
      Token := { PosRange := { From := 0, To := 6 }, Kind := token.Kind.RPAREN,
                 Literal := ")" },
      DelimiterStack := [] }
    { Scanner := { Position := 6, pending := [(token.Kind.NEWLINE, "\n", none)] },
      Token := { PosRange := { From := 0, To := 6 }, Kind := token.Kind.RPAREN,
                 Literal := ")" },
      DelimiterStack := [[1, 2], [3]] }
    rfl rfl

/-! ## Position ranges -/

/-- When no raw scan moves the position backwards, a token that `ScanToken`
returns has a range that does not run backwards. -/
theorem ScanToken_range_ordered [LE Pos] (R : scanner.Model σ Pos Err)
    (hmono : ∀ sc, R.Position sc ≤ R.Position (R.ScanToken sc).1) :
    ∀ (n : Nat) (s s1 : Scanner σ Pos) (tok : ast.Token Pos),
      Scanner.ScanToken R n s = some ((tok, none), s1) →
      tok.PosRange.From ≤ tok.PosRange.To := by
  intro n
  induction n with
  | zero => intro s s1 tok h; simp [Scanner.ScanToken] at h
  | succ n ih =>
    intro s s1 tok h
    rcases hres : R.ScanToken s.Scanner with ⟨sc, kind, lit, rerr⟩
    have hstep : R.Position s.Scanner ≤ R.Position sc := by
      have := hmono s.Scanner
      rwa [hres] at this
    cases rerr with
    | some e =>
      rw [ScanToken_failure R n s hres] at h
      simp at h
    | none =>
      by_cases hk : kind = token.Kind.NEWLINE
      · subst hk
        by_cases hl : s.Token.Kind ∈ terminatorEligible
        · rw [ScanToken_terminator R n s hres hl] at h
          simp only [Option.some.injEq, Prod.mk.injEq] at h
          rw [← h.1.1]
          exact hstep
        · rw [ScanToken_discard R n s hres hl] at h
          exact ih { s with Scanner := sc } s1 tok h
      · rw [ScanToken_passthrough R n s hres hk] at h
        simp only [Option.some.injEq, Prod.mk.injEq] at h
        rw [← h.1.1]
        exact hstep

/-- The replaying scanner never moves its position backwards. -/
theorem Replay.position_monotone (sc : Replay) :
    Replay.model.Position sc ≤ Replay.model.Position (Replay.model.ScanToken sc).1 := by
  rcases sc with ⟨pos, pending⟩
  cases pending with
  | nil => exact Nat.le_refl _
  | cons hd rest =>
    obtain ⟨k, lit, err⟩ := hd
    exact Nat.le_add_right _ _

/-- C13: when no raw scan of the wrapped scanner moves its position backwards,
every token that `ScanToken` returns with a `nil` error, passed through or a
synthesized terminator, has a position range with `From ≤ To`. -/
theorem ScanToken_range_from_le_to [LE Pos] (R : scanner.Model σ Pos Err) (fuel : Nat)
    (s s1 : Scanner σ Pos) (tok : ast.Token Pos)
    (hmono : ∀ sc, R.Position sc ≤ R.Position (R.ScanToken sc).1)
    (h : Scanner.ScanToken R fuel s = some ((tok, none), s1)) :
    tok.PosRange.From ≤ tok.PosRange.To :=
  ScanToken_range_ordered R hmono fuel s s1 tok h

theorem ScanToken_range_from_le_to_witness :
    Scanner.ScanToken Replay.model 2
        { Scanner := { Position := 7,
                       pending := [(token.Kind.NEWLINE, "\n", none),
                                   (token.Kind.RBRACE, "\x7d", none)] },
          Token := { PosRange := { From := 6, To := 7 }, Kind := token.Kind.SEMICOLON,
                     Literal := ";" },
          DelimiterStack := [] }
      = some (({ PosRange := { From := 8, To := 9 }, Kind := token.Kind.RBRACE,
                 Literal := "\x7d" }, none),
              { Scanner := { Position := 9, pending := [] },
                Token := { PosRange := { From := 6, To := 7 }, Kind := token.Kind.SEMICOLON,
                           Literal := ";" },
                DelimiterStack := [] }) ∧
    ({ PosRange := { From := 8, To := 9 }, Kind := token.Kind.RBRACE,
       Literal := "\x7d" } : ast.Token Nat).PosRange.From
      ≤ ({ PosRange := { From := 8, To := 9 }, Kind := token.Kind.RBRACE,
           Literal := "\x7d" } : ast.Token Nat).PosRange.To :=
  ⟨by decide,
   ScanToken_range_from_le_to Replay.model 2
    { Scanner := { Position := 7,
                   pending := [(token.Kind.NEWLINE, "\n", none),
                               (token.Kind.RBRACE, "\x7d", none)] },
      Token := { PosRange := { From := 6, To := 7 }, Kind := token.Kind.SEMICOLON,
                 Literal := ";" },
      DelimiterStack := [] }
    { Scanner := { Position := 9, pending := [] },
      Token := { PosRange := { From := 6, To := 7 }, Kind := token.Kind.SEMICOLON,
                 Literal := ";" },
      DelimiterStack := [] }
    { PosRange := { From := 8, To := 9 }, Kind := token.Kind.RBRACE, Literal := "\x7d" }
    Replay.position_monotone (by decide)⟩

/-! ## Cost of one `ScanToken` call -/

theorem ScanTokenCost_failure (R : scanner.Model σ Pos Err) (fuel : Nat) (s : Scanner σ Pos)
    {sc : σ} {kind : token.Kind} {lit : List Char} {e : Err}
    (hraw : R.ScanToken s.Scanner = (sc, kind, lit, some e)) :
    Scanner.ScanTokenCost R (fuel + 1) s
      = some (((ast.Token.zero, some e), { s with Scanner := sc }), 1, 0) := by
  simp [Scanner.ScanTokenCost, hraw]

theorem ScanTokenCost_passthrough (R : scanner.Model σ Pos Err) (fuel : Nat)
    (s : Scanner σ Pos) {sc : σ} {kind : token.Kind} {lit : List Char}
    (hraw : R.ScanToken s.Scanner = (sc, kind, lit, none))
    (hkind : kind ≠ token.Kind.NEWLINE) :
    Scanner.ScanTokenCost R (fuel + 1) s
      = some ((({ PosRange := { From := R.Position s.Scanner, To := R.Position sc },
                  Kind := kind, Literal := String.mk lit }, none),
               { s with Scanner := sc }), 1, 0) := by
  simp [Scanner.ScanTokenCost, hraw, hkind]

theorem ScanTokenCost_terminator (R : scanner.Model σ Pos Err) (fuel : Nat)
    (s : Scanner σ Pos) {sc : σ} {lit : List Char}
    (hraw : R.ScanToken s.Scanner = (sc, token.Kind.NEWLINE, lit, none))
    (hlast : s.Token.Kind ∈ terminatorEligible) :
    Scanner.ScanTokenCost R (fuel + 1) s
      = some ((({ PosRange := { From := R.Position s.Scanner, To := R.Position sc },
                  Kind := token.Kind.SEMICOLON, Literal := ";" }, none),
               { s with Scanner := sc }), 1, 0) := by
  simp only [terminatorEligible, List.mem_cons, List.mem_singleton, List.not_mem_nil,
    or_false] at hlast
  rcases hlast with h | h | h | h | h | h | h | h | h <;>
    simp [Scanner.ScanTokenCost, hraw, h]

/-- A discarded newline costs one raw scan and one self-call more than the call
it passes on to. -/
theorem ScanTokenCost_discard (R : scanner.Model σ Pos Err) (fuel : Nat)
    (s : Scanner σ Pos) {sc : σ} {lit : List Char}
    (hraw : R.ScanToken s.Scanner = (sc, token.Kind.NEWLINE, lit, none))
    (hlast : s.Token.Kind ∉ terminatorEligible) :
    Scanner.ScanTokenCost R (fuel + 1) s
      = (Scanner.ScanTokenCost R fuel { s with Scanner := sc }).map
          (fun p => (p.1, p.2.1 + 1, p.2.2 + 1)) := by
  simp only [terminatorEligible, List.mem_cons, List.mem_singleton, List.not_mem_nil,
    or_false, not_or] at hlast
  obtain ⟨h1, h2, h3, h4, h5, h6, h7, h8, h9⟩ := hlast
  simp only [Scanner.ScanTokenCost, hraw, if_true]
  cases Scanner.ScanTokenCost R fuel { s with Scanner := sc } with
  | none => rfl
  | some p => rfl

/-- Forgetting the counters of `ScanTokenCost` gives `ScanToken`. -/
theorem ScanTokenCost_result (R : scanner.Model σ Pos Err) :
    ∀ (n : Nat) (s : Scanner σ Pos),
      (Scanner.ScanTokenCost R n s).map (fun p => p.1) = Scanner.ScanToken R n s := by
  intro n
  induction n with
  | zero => intro s; rfl
  | succ n ih =>
    intro s
    rcases hres : R.ScanToken s.Scanner with ⟨sc, kind, lit, rerr⟩
    cases rerr with
    | some e =>
      rw [ScanToken_failure R n s hres, ScanTokenCost_failure R n s hres]
      rfl
    | none =>
      by_cases hk : kind = token.Kind.NEWLINE
      · subst hk
        by_cases hl : s.Token.Kind ∈ terminatorEligible
        · rw [ScanToken_terminator R n s hres hl, ScanTokenCost_terminator R n s hres hl]
          rfl
        · rw [ScanToken_discard R n s hres hl, ScanTokenCost_discard R n s hres hl,
            ← ih { s with Scanner := sc }]
          cases Scanner.ScanTokenCost R n { s with Scanner := sc } with
          | none => rfl
          | some p => rfl
      · rw [ScanToken_passthrough R n s hres hk, ScanTokenCost_passthrough R n s hres hk]
        rfl

/-- A discarded run of `d` newlines costs `d` raw scans and `d` self-calls. -/
theorem ScanTokenCost_discard_run (R : scanner.Model σ Pos Err) :
    ∀ (d : Nat) (s : Scanner σ Pos) (fuel : Nat), NewlineRun R d s.Scanner →
      s.Token.Kind ∉ terminatorEligible →
      Scanner.ScanTokenCost R (fuel + d) s
        = (Scanner.ScanTokenCost R fuel { s with Scanner := rawAfter R d s.Scanner }).map
            (fun p => (p.1, p.2.1 + d, p.2.2 + d)) := by
  intro d
  induction d with
  | zero =>
    intro s fuel _ _
    cases h : Scanner.ScanTokenCost R fuel s with
    | none => simp [rawAfter, h]
    | some p => simp [rawAfter, h]
  | succ d ih =>
    intro s fuel hrun hlast
    have hfuel : fuel + (d + 1) = (fuel + d) + 1 := by omega
    rw [hfuel, ScanTokenCost_discard R (fuel + d) s (NewlineRun_head R hrun) hlast,
      ih { s with Scanner := (R.ScanToken s.Scanner).1 } fuel (NewlineRun_tail R hrun) hlast]
    show Option.map (fun p => (p.1, p.2.1 + 1, p.2.2 + 1))
        (Option.map (fun p => (p.1, p.2.1 + d, p.2.2 + d))
          (Scanner.ScanTokenCost R fuel { s with Scanner := rawAfter R (d + 1) s.Scanner }))
      = Option.map (fun p => (p.1, p.2.1 + (d + 1), p.2.2 + (d + 1)))
          (Scanner.ScanTokenCost R fuel { s with Scanner := rawAfter R (d + 1) s.Scanner })
    cases Scanner.ScanTokenCost R fuel
        { s with Scanner := rawAfter R (d + 1) s.Scanner } with
    | none => rfl
    | some p => rfl

/-- A raw scan that fails or gives a kind other than `NEWLINE` ends the call:
one raw scan, no self-call. -/
theorem ScanTokenCost_stop (R : scanner.Model σ Pos Err) (fuel : Nat) (s : Scanner σ Pos)
    (hstop : (R.ScanToken s.Scanner).2.2.2 ≠ none ∨
      (R.ScanToken s.Scanner).2.1 ≠ token.Kind.NEWLINE) :
    ∃ res, Scanner.ScanTokenCost R (fuel + 1) s = some (res, 1, 0) ∧
      res.2.Scanner = (R.ScanToken s.Scanner).1 := by
  rcases hres : R.ScanToken s.Scanner with ⟨sc, kind, lit, rerr⟩
  rw [hres] at hstop
  cases rerr with
  | some e => exact ⟨_, ScanTokenCost_failure R fuel s hres, rfl⟩
  | none =>
    rcases hstop with h | h
    · exact absurd rfl h
    · exact ⟨_, ScanTokenCost_passthrough R fuel s hres h, rfl⟩

/-- C14: when the raw scanner gives `k ≥ 0` newlines and then a token of another
kind or a failure, `ScanToken` returns with fuel `k + 1`: it performs `d + 1` raw
scans and `d` recursive self-calls, `d` being the number of newlines it discards
(`0` when the current token is terminator-eligible, `k` otherwise), so at most
`k + 1` raw scans and at most `k` self-calls; the raw scanner is left in the
state after those `d + 1` scans. -/
theorem ScanToken_cost_bounded (R : scanner.Model σ Pos Err) (fuel k : Nat)
    (s : Scanner σ Pos)
    (hrun : NewlineRun R k s.Scanner)
    (hstop : (R.ScanToken (rawAfter R k s.Scanner)).2.2.2 ≠ none ∨
      (R.ScanToken (rawAfter R k s.Scanner)).2.1 ≠ token.Kind.NEWLINE) :
    ∃ (res : (ast.Token Pos × Option Err) × Scanner σ Pos) (d : Nat),
      Scanner.ScanTokenCost R (fuel + k + 1) s = some (res, d + 1, d) ∧
      Scanner.ScanToken R (fuel + k + 1) s = some res ∧
      d ≤ k ∧
      d = (if s.Token.Kind ∈ terminatorEligible then 0 else k) ∧
      res.2.Scanner = rawAfter R (d + 1) s.Scanner := by
  have key : ∃ (res : (ast.Token Pos × Option Err) × Scanner σ Pos) (d : Nat),
      Scanner.ScanTokenCost R (fuel + k + 1) s = some (res, d + 1, d) ∧
      d ≤ k ∧
      d = (if s.Token.Kind ∈ terminatorEligible then 0 else k) ∧
      res.2.Scanner = rawAfter R (d + 1) s.Scanner := by
    by_cases hl : s.Token.Kind ∈ terminatorEligible
    · cases k with
      | zero =>
        obtain ⟨res, hc, hsc⟩ := ScanTokenCost_stop R fuel s hstop
        exact ⟨res, 0, hc, Nat.le_refl 0, by simp [hl], hsc⟩
      | succ k =>
        exact ⟨_, 0,
          ScanTokenCost_terminator R (fuel + (k + 1)) s (NewlineRun_head R hrun) hl,
          Nat.zero_le _, by simp [hl], rfl⟩
    · have hfuel : fuel + k + 1 = (fuel + 1) + k := by omega
      obtain ⟨res, hc, hsc⟩ :=
        ScanTokenCost_stop R fuel { s with Scanner := rawAfter R k s.Scanner } hstop
      refine ⟨res, k, ?_, Nat.le_refl k, by simp [hl], ?_⟩
      · rw [hfuel, ScanTokenCost_discard_run R k s (fuel + 1) hrun hl, hc]
        simp [Nat.add_comm]
      · rw [hsc, rawAfter_succ]
  obtain ⟨res, d, hc, hle, hd, hsc⟩ := key
  refine ⟨res, d, hc, ?_, hle, hd, hsc⟩
  rw [← ScanTokenCost_result R, hc]
  rfl

theorem ScanToken_cost_bounded_witness :
    ∃ (res : (ast.Token Nat × Option String) × Scanner Replay Nat),
      Scanner.ScanTokenCost Replay.model 3
          (Replay.start [(token.Kind.NEWLINE, "\n", none), (token.Kind.NEWLINE, "\n", none),
                         (token.Kind.IDENT, "x", none)])
        = some (res, 3, 2) ∧
      res.1 = ({ PosRange := { From := 2, To := 3 }, Kind := token.Kind.IDENT,
                 Literal := "x" }, none) := by
  obtain ⟨res, d, hc, hres, _, hd, _⟩ := ScanToken_cost_bounded Replay.model 0 2
    (Replay.start [(token.Kind.NEWLINE, "\n", none), (token.Kind.NEWLINE, "\n", none),
                   (token.Kind.IDENT, "x", none)])
    (by decide) (Or.inr (by decide))
  have hd2 : d = 2 := hd
  subst hd2
  refine ⟨res, hc, ?_⟩
  have hval : Scanner.ScanToken Replay.model 3
      (Replay.start [(token.Kind.NEWLINE, "\n", none), (token.Kind.NEWLINE, "\n", none),
                     (token.Kind.IDENT, "x", none)])
      = some (({ PosRange := { From := 2, To := 3 }, Kind := token.Kind.IDENT,
                 Literal := "x" }, none),
              { Scanner := { Position := 3, pending := [] }, Token := ast.Token.zero,
                DelimiterStack := [] }) := by decide
  have hres2 : Scanner.ScanToken Replay.model 3
      (Replay.start [(token.Kind.NEWLINE, "\n", none), (token.Kind.NEWLINE, "\n", none),
                     (token.Kind.IDENT, "x", none)]) = some res := hres
  rw [hres2] at hval
  cases hval
  rfl

/-! ## `Scan` on a failure, and what the two calls leave alone -/

/-- C15: when the underlying `ScanToken` call fails with error `e`, `Scan` panics
with exactly `e` and does not return; the assignment is not reached, so the
current token at the panic is the one from before the call. -/
theorem Scan_failure_panics (R : scanner.Model σ Pos Err) (fuel : Nat)
    (s s1 : Scanner σ Pos) (tok : ast.Token Pos) (e : Err)
    (h : Scanner.ScanToken R fuel s = some ((tok, some e), s1)) :
    Scanner.Scan R fuel s = some (ScanResult.panicked e s1) ∧
    s1.Token = s.Token ∧
    ∀ s2, Scanner.Scan R fuel s ≠ some (ScanResult.returned s2) := by
  refine ⟨Scan_of_failure R h, (ScanToken_frame R fuel s _ s1 h).1, ?_⟩
  intro s2
  rw [Scan_of_failure R h]
  simp

theorem Scan_failure_panics_witness :
    Scanner.Scan Replay.model 1
        { Scanner := { Position := 1,
                       pending := [(token.Kind.ILLEGAL, "", some "invalid rune")] },
          Token := { PosRange := { From := 0, To := 1 }, Kind := token.Kind.IDENT,
                     Literal := "x" },
          DelimiterStack := [] }
      = some (ScanResult.panicked "invalid rune"
          { Scanner := { Position := 2, pending := [] },
            Token := { PosRange := { From := 0, To := 1 }, Kind := token.Kind.IDENT,
                       Literal := "x" },
            DelimiterStack := [] }) :=
  (Scan_failure_panics Replay.model 1
    { Scanner := { Position := 1,
                   pending := [(token.Kind.ILLEGAL, "", some "invalid rune")] },
      Token := { PosRange := { From := 0, To := 1 }, Kind := token.Kind.IDENT,
                 Literal := "x" },
      DelimiterStack := [] }
    { Scanner := { Position := 2, pending := [] },
      Token := { PosRange := { From := 0, To := 1 }, Kind := token.Kind.IDENT,
                 Literal := "x" },
      DelimiterStack := [] }
    ast.Token.zero "invalid rune" (by decide)).1

/-- How a `Scan` call that ended came from the underlying `ScanToken` call. -/
theorem Scan_inv (R : scanner.Model σ Pos Err) {fuel : Nat} {s : Scanner σ Pos}
    {r : ScanResult σ Pos Err} (h : Scanner.Scan R fuel s = some r) :
    (∃ tok s0, Scanner.ScanToken R fuel s = some ((tok, none), s0) ∧
        r = ScanResult.returned { s0 with Token := tok }) ∨
    (∃ tok e s0, Scanner.ScanToken R fuel s = some ((tok, some e), s0) ∧
        r = ScanResult.panicked e s0) := by
  unfold Scanner.Scan at h
  cases hs : Scanner.ScanToken R fuel s with
  | none => simp [hs] at h
  | some p =>
    obtain ⟨⟨tok, err⟩, s0⟩ := p
    cases err with
    | none =>
      simp only [hs, Option.some.injEq] at h
      exact Or.inl ⟨tok, s0, rfl, h.symm⟩
    | some e =>
      simp only [hs, Option.some.injEq] at h
      exact Or.inr ⟨tok, e, s0, rfl, h.symm⟩

/-- C16: a `ScanToken` call that returns, with a token or a failure and after any
number of discarded newlines, leaves the current token and the delimiter stack
as they were: the filter after the call is the filter before it with only the
raw scanner replaced.  A `Scan` call, whether it returns or panics, leaves the
delimiter stack as it was. -/
theorem ScanToken_changes_only_raw_scanner (R : scanner.Model σ Pos Err) (fuel : Nat)
    (s : Scanner σ Pos) :
    (∀ (r : ast.Token Pos × Option Err) (s1 : Scanner σ Pos),
      Scanner.ScanToken R fuel s = some (r, s1) →
      s1.Token = s.Token ∧ s1.DelimiterStack = s.DelimiterStack ∧
      s1 = { Scanner := s1.Scanner, Token := s.Token, DelimiterStack := s.DelimiterStack }) ∧
    (∀ (s1 : Scanner σ Pos), Scanner.Scan R fuel s = some (ScanResult.returned s1) →
      s1.DelimiterStack = s.DelimiterStack) ∧
    (∀ (e : Err) (s1 : Scanner σ Pos),
      Scanner.Scan R fuel s = some (ScanResult.panicked e s1) →
      s1.DelimiterStack = s.DelimiterStack ∧ s1.Token = s.Token) := by
  refine ⟨?_, ?_, ?_⟩
  · intro r s1 h
    obtain ⟨h1, h2⟩ := ScanToken_frame R fuel s r s1 h
    refine ⟨h1, h2, ?_⟩
    rw [← h1, ← h2]
  · intro s1 h
    rcases Scan_inv R h with ⟨tok, s0, h0, hr⟩ | ⟨tok, e, s0, _, hr⟩
    · cases hr
      exact (ScanToken_frame R fuel s _ s0 h0).2
    · cases hr
  · intro e s1 h
    rcases Scan_inv R h with ⟨tok, s0, _, hr⟩ | ⟨tok, e0, s0, h0, hr⟩
    · cases hr
    · cases hr
      exact ⟨(ScanToken_frame R fuel s _ _ h0).2, (ScanToken_frame R fuel s _ _ h0).1⟩

theorem ScanToken_changes_only_raw_scanner_witness :
    Scanner.ScanToken Replay.model 2
        { Scanner := { Position := 1,
                       pending := [(token.Kind.NEWLINE, "\n", none),
                                   (token.Kind.IDENT, "y", none)] },
          Token := { PosRange := { From := 0, To := 1 }, Kind := token.Kind.PLUS,
                     Literal := "+" },
          DelimiterStack := [[4]] }
      = some (({ PosRange := { From := 2, To := 3 }, Kind := token.Kind.IDENT,
                 Literal := "y" }, none),
              { Scanner := { Position := 3, pending := [] },
                Token := { PosRange := { From := 0, To := 1 }, Kind := token.Kind.PLUS,
                           Literal := "+" },
                DelimiterStack := [[4]] }) ∧
    ({ Scanner := { Position := 3, pending := [] },
       Token := { PosRange := { From := 0, To := 1 }, Kind := token.Kind.PLUS,
                  Literal := "+" },
       DelimiterStack := [[4]] } : Scanner Replay Nat).DelimiterStack = [[4]] :=
  ⟨by decide,
   ((ScanToken_changes_only_raw_scanner Replay.model 2
    { Scanner := { Position := 1,
                   pending := [(token.Kind.NEWLINE, "\n", none),
                               (token.Kind.IDENT, "y", none)] },
      Token := { PosRange := { From := 0, To := 1 }, Kind := token.Kind.PLUS,
                 Literal := "+" },
      DelimiterStack := [[4]] }).1
    ({ PosRange := { From := 2, To := 3 }, Kind := token.Kind.IDENT, Literal := "y" }, none)
    { Scanner := { Position := 3, pending := [] },
      Token := { PosRange := { From := 0, To := 1 }, Kind := token.Kind.PLUS,
                 Literal := "+" },
      DelimiterStack := [[4]] }
    (by decide)).2.1⟩

end parser
